import Mathlib

/-!
Shallow embedding of the Hive rules engine
(`open_spiel/games/hive/hive_hexboard.{h,cc}` and
`open_spiel/games/hive/hive.{h,cc}`).

C++ machine integers (`int`, `int8_t`, `int64_t`) are modelled as `ℤ` or `ℕ`;
all values arising in the modelled executions stay far inside the machine
ranges (coordinates are bounded by the board radius ≤ 14, tile ids by 28,
action ids by 5489), so no wrap-around is observable, with the one
exception noted at `DistanceTo` below (which is only ever called with the
origin as second argument, where no subtraction overflow can occur).

`absl::flat_hash_set` is modelled as a duplicate-free `List` with
membership-guarded insertion (`listInsert`); iteration order of a hash set
is unspecified in C++ and no theorem below depends on the order of such a
list.  `absl::flat_hash_map` is modelled as an association list where an
assignment prepends and a lookup takes the first match.
-/

namespace HiveSpec

/-- `open_spiel::hive::Colour`. -/
inductive Colour
  | kWhite
  | kBlack
deriving DecidableEq, Repr

open Colour

/-- `open_spiel::hive::BugType` (the `kNumBugTypes` marker is dropped;
`kNone` is kept as the sentinel value). -/
inductive BugType
  | kQueen
  | kAnt
  | kGrasshopper
  | kSpider
  | kBeetle
  | kMosquito
  | kLadybug
  | kPillbug
  | kNone
deriving DecidableEq, Repr

open BugType

/-- `OtherColour`. -/
def OtherColour (c : Colour) : Colour :=
  match c with
  | kWhite => kBlack
  | kBlack => kWhite

/-- `OtherPlayer` (players are `0 = White`, `1 = Black`). -/
def OtherPlayer (p : ℕ) : ℕ := if p = 0 then 1 else 0

/-- `PlayerToColour`. -/
def PlayerToColour (p : ℕ) : Colour := if p = 0 then kWhite else kBlack

/-- The `Direction` enum is represented by its numeric value:
`kNE = 0`, `kE = 1`, `kSE = 2`, `kSW = 3`, `kW = 4`, `kNW = 5`,
`kAbove = 6`, `kNumAllDirections = 7`. -/
def kNE : ℕ := 0
def kE : ℕ := 1
def kSE : ℕ := 2
def kSW : ℕ := 3
def kW : ℕ := 4
def kNW : ℕ := 5
def kAbove : ℕ := 6
def kNumCardinalDirections : ℕ := 6
def kNumAllDirections : ℕ := 7

/-- `OppositeDirection`: `(d + 3) % 6`. -/
def OppositeDirection (d : ℕ) : ℕ := (d + 3) % 6

/-- `ClockwiseDirection`: `(d + 1) % 6`. -/
def ClockwiseDirection (d : ℕ) : ℕ := (d + 1) % 6

/-- `CounterClockwiseDirection`: `(d + 5) % 6`. -/
def CounterClockwiseDirection (d : ℕ) : ℕ := (d + 5) % 6

/-- `open_spiel::hive::HivePosition`: axial coordinates plus stack height. -/
structure HivePosition where
  q : ℤ
  r : ℤ
  h : ℤ
deriving DecidableEq, Repr

/-- `kNullPosition = (0, 0, -1)`. -/
def kNullPosition : HivePosition := ⟨0, 0, -1⟩

/-- `kOriginPosition = (0, 0, 0)`. -/
def kOriginPosition : HivePosition := ⟨0, 0, 0⟩

instance : Add HivePosition := ⟨fun a b => ⟨a.q + b.q, a.r + b.r, a.h + b.h⟩⟩

instance : Sub HivePosition := ⟨fun a b => ⟨a.q - b.q, a.r - b.r, a.h - b.h⟩⟩

/-- `HivePosition::DistanceTo`:
`(|Δq| + |Δq + Δr| + |Δr|) / 2`.  The C++ subtraction narrows into
`int8_t`, which can wrap for coordinate differences beyond ±127; every
call in the engine passes `kOriginPosition` as `other`, so the difference
equals the position itself and no wrap occurs.  The numerator is even and
non-negative, so C++ truncating `int` division agrees with `Int.ediv`. -/
def DistanceTo (a b : HivePosition) : ℤ :=
  (|a.q - b.q| + |(a.q - b.q) + (a.r - b.r)| + |a.r - b.r|) / 2

/-- `kNeighbourOffsets`: NE, E, SE, SW, W, NW, Above.  Out-of-range
indices are undefined behaviour in C++ (array over-read) and never occur;
they are mapped to the zero offset here. -/
def kNeighbourOffsets (d : ℕ) : HivePosition :=
  match d with
  | 0 => ⟨1, -1, 0⟩
  | 1 => ⟨1, 0, 0⟩
  | 2 => ⟨0, 1, 0⟩
  | 3 => ⟨-1, 1, 0⟩
  | 4 => ⟨-1, 0, 0⟩
  | 5 => ⟨0, -1, 0⟩
  | 6 => ⟨0, 0, 1⟩
  | _ => ⟨0, 0, 0⟩

/-- `HivePosition::Neighbours()`: the six cardinal neighbours.  NOTE: the
C++ list constructs each neighbour with the two-argument constructor, so
the height of every returned position is `0`, not the height of `this`
(unlike `NeighbourAt`, which preserves the height). -/
def Neighbours (p : HivePosition) : List HivePosition :=
  [⟨p.q + 1, p.r - 1, 0⟩, ⟨p.q + 1, p.r, 0⟩, ⟨p.q, p.r + 1, 0⟩,
   ⟨p.q - 1, p.r + 1, 0⟩, ⟨p.q - 1, p.r, 0⟩, ⟨p.q, p.r - 1, 0⟩]

/-- `HivePosition::NeighbourAt`. -/
def NeighbourAt (p : HivePosition) (d : ℕ) : HivePosition := p + kNeighbourOffsets d

/-- `HivePosition::Grounded()`. -/
def Grounded (p : HivePosition) : HivePosition := ⟨p.q, p.r, 0⟩

/-- `kBugCounts = {1, 3, 3, 2, 2, 1, 1, 1}`. -/
def kBugCounts : List ℕ := [1, 3, 3, 2, 2, 1, 1, 1]

def kMaxTileCount : ℕ := 28
def kMaxBoardRadius : ℤ := 14
def kDefaultBoardRadius : ℤ := 8

/-- `open_spiel::hive::NewHiveTile`: one of the 28 physical tiles, or the
`kNoneTile` sentinel (28).  The enum order is `wQ, wA1..wA3, wG1..wG3,
wS1, wS2, wB1, wB2, wM, wL, wP, bQ, bA1..bA3, bG1..bG3, bS1, bS2, bB1,
bB2, bM, bL, bP`. -/
abbrev NewHiveTile := Fin 29

namespace NewHiveTile

def wQ : NewHiveTile := 0
def wA1 : NewHiveTile := 1
def wA2 : NewHiveTile := 2
def wA3 : NewHiveTile := 3
def wG1 : NewHiveTile := 4
def wG2 : NewHiveTile := 5
def wG3 : NewHiveTile := 6
def wS1 : NewHiveTile := 7
def wS2 : NewHiveTile := 8
def wB1 : NewHiveTile := 9
def wB2 : NewHiveTile := 10
def wM : NewHiveTile := 11
def wL : NewHiveTile := 12
def wP : NewHiveTile := 13
def bQ : NewHiveTile := 14
def bA1 : NewHiveTile := 15
def bA2 : NewHiveTile := 16
def bA3 : NewHiveTile := 17
def bG1 : NewHiveTile := 18
def bG2 : NewHiveTile := 19
def bG3 : NewHiveTile := 20
def bS1 : NewHiveTile := 21
def bS2 : NewHiveTile := 22
def bB1 : NewHiveTile := 23
def bB2 : NewHiveTile := 24
def bM : NewHiveTile := 25
def bL : NewHiveTile := 26
def bP : NewHiveTile := 27
def kNoneTile : NewHiveTile := 28

/-- `NewHiveTile::HasValue()`: `tile_name_ < kNoneTile`. -/
def HasValue (t : NewHiveTile) : Bool := decide (t.val < 28)

/-- `NewHiveTile::GetTilesForColour`. -/
def GetTilesForColour (c : Colour) : List NewHiveTile :=
  match c with
  | kWhite => [wQ, wA1, wA2, wA3, wG1, wG2, wG3, wS1, wS2, wB1, wB2, wM, wL, wP]
  | kBlack => [bQ, bA1, bA2, bA3, bG1, bG2, bG3, bS1, bS2, bB1, bB2, bM, bL, bP]

/-- `NewHiveTile::GetTileFrom`: base value for the colour, plus the
fall-through sum of the bug counts of all earlier bug types, plus
`ordinal - 1`.  The C++ arithmetic is on `uint8_t` values and every valid
argument combination lands in `0..27`; `Fin.ofNat` (mod 29) is the
identity there. -/
def GetTileFrom (c : Colour) (type : BugType) (ordinal : ℕ := 1) : NewHiveTile :=
  let base : ℕ := match c with | kWhite => 0 | kBlack => 14
  let offset : ℕ :=
    match type with
    | kQueen => 0
    | kAnt => 1
    | kGrasshopper => 1 + 3
    | kSpider => 1 + 3 + 3
    | kBeetle => 1 + 3 + 3 + 2
    | kMosquito => 1 + 3 + 3 + 2 + 2
    | kLadybug => 1 + 3 + 3 + 2 + 2 + 1
    | kPillbug => 1 + 3 + 3 + 2 + 2 + 1 + 1
    | kNone => 0
  Fin.ofNat (base + offset + ordinal - 1)

/-- `NewHiveTile::GetBugType()`. -/
def GetBugType (t : NewHiveTile) : BugType :=
  if t.val = 0 ∨ t.val = 14 then kQueen
  else if (1 ≤ t.val ∧ t.val ≤ 3) ∨ (15 ≤ t.val ∧ t.val ≤ 17) then kAnt
  else if (4 ≤ t.val ∧ t.val ≤ 6) ∨ (18 ≤ t.val ∧ t.val ≤ 20) then kGrasshopper
  else if (7 ≤ t.val ∧ t.val ≤ 8) ∨ (21 ≤ t.val ∧ t.val ≤ 22) then kSpider
  else if (9 ≤ t.val ∧ t.val ≤ 10) ∨ (23 ≤ t.val ∧ t.val ≤ 24) then kBeetle
  else if t.val = 11 ∨ t.val = 25 then kMosquito
  else if t.val = 12 ∨ t.val = 26 then kLadybug
  else if t.val = 13 ∨ t.val = 27 then kPillbug
  else kNone

/-- `NewHiveTile::GetColour()`.  C++ raises a fatal error on `kNoneTile`;
the engine only calls this on valid tiles, and the sentinel is mapped to
an arbitrary colour here. -/
def GetColour (t : NewHiveTile) : Colour :=
  if t.val ≤ 13 then kWhite else kBlack

/-- `NewHiveTile::GetOrdinal()`. -/
def GetOrdinal (t : NewHiveTile) : ℕ :=
  if t.val = 28 then 0
  else if t.val = 2 ∨ t.val = 5 ∨ t.val = 8 ∨ t.val = 10 ∨
          t.val = 16 ∨ t.val = 19 ∨ t.val = 22 ∨ t.val = 24 then 2
  else if t.val = 3 ∨ t.val = 6 ∨ t.val = 17 ∨ t.val = 20 then 3
  else 1

end NewHiveTile

/-- `open_spiel::hive::Move`: moving tile, reference tile, direction. -/
structure Move where
  source : NewHiveTile     -- the C++ field is named `from` (a Lean keyword)
  target : NewHiveTile     -- the C++ field is named `to` (a Lean keyword)
  direction : ℕ
deriving DecidableEq, Repr

/-- `Move::IsPass()`: `!from.HasValue()`. -/
def Move.IsPass (m : Move) : Bool := !m.source.HasValue

/-- Membership-guarded list insertion: the model of
`absl::flat_hash_set::insert` (duplicate-free, order immaterial). -/
def listInsert {α : Type} [DecidableEq α] (a : α) (l : List α) : List α :=
  if a ∈ l then l else a :: l

/-- First-occurrence erase: the model of `absl::flat_hash_set::erase`. -/
def listErase {α : Type} [DecidableEq α] : List α → α → List α
  | [], _ => []
  | b :: l, a => if b = a then l else b :: listErase l a

open NewHiveTile

/-- `open_spiel::hive::HexBoard`.  `tile_grid_` is the flattened
`(2R+1)²` array of top-of-stack tiles; `tile_positions_` is the 28-entry
tile → position table; `covered_tiles_` is the 7-entry buried-tile list;
the two `colour_influence_` hash sets and `articulation_points_` are
modelled as duplicate-free lists. -/
structure HexBoard where
  hex_radius : ℤ
  tile_grid : List NewHiveTile
  played_tiles : List NewHiveTile
  tile_positions : List HivePosition
  covered_tiles : List NewHiveTile
  articulation_points : List HivePosition
  largest_radius : ℤ
  last_moved : NewHiveTile
  last_moved_from : HivePosition
  influence_white : List HivePosition
  influence_black : List HivePosition
deriving DecidableEq, Repr

namespace HexBoard

/-- The `HexBoard` constructor: radius clamped to `kMaxBoardRadius`, an
all-empty grid, default-initialised members.  (The expansion flags are
stored by the constructor but never read by the board.) -/
def mkBoard (board_radius : ℤ) : HexBoard :=
  let radius := min board_radius kMaxBoardRadius
  { hex_radius := radius
    tile_grid := List.replicate ((2 * radius + 1) * (2 * radius + 1)).toNat kNoneTile
    played_tiles := []
    tile_positions := List.replicate 28 kNullPosition
    covered_tiles := List.replicate 7 kNoneTile
    articulation_points := []
    largest_radius := 0
    last_moved := kNoneTile
    last_moved_from := kNullPosition
    influence_white := []
    influence_black := [] }

/-- `colour_influence_[static_cast<int>(c)]`. -/
def influence (b : HexBoard) (c : Colour) : List HivePosition :=
  match c with
  | kWhite => b.influence_white
  | kBlack => b.influence_black

def setInfluence (b : HexBoard) (c : Colour) (l : List HivePosition) : HexBoard :=
  match c with
  | kWhite => { b with influence_white := l }
  | kBlack => { b with influence_black := l }

/-- `HexBoard::Radius()`. -/
def Radius (b : HexBoard) : ℤ := b.hex_radius

/-- `HexBoard::SquareDimensions()`: `2R + 1`. -/
def SquareDimensions (b : HexBoard) : ℤ := 2 * b.hex_radius + 1

/-- `HexBoard::AxialToIndex`:
`pos.Q() + R + (pos.R() + R) * (2R+1)` (the height is ignored).  The C++
arithmetic is in `int` and then converted to `size_t`; every call is
guarded by a radius check under which the value is non-negative (claim
C9), so the `ℤ` value is the index. -/
def AxialToIndex (b : HexBoard) (pos : HivePosition) : ℤ :=
  pos.q + b.Radius + (pos.r + b.Radius) * b.SquareDimensions

/-- `HexBoard::GetTopTileAt`: returns `kNoneTile` for positions farther
than the radius from the origin, otherwise reads the grid.  (`toNat` on
the index is the faithful `size_t` value in the guarded branch, where the
index is non-negative and within bounds; see claim C9.) -/
def GetTopTileAt (b : HexBoard) (pos : HivePosition) : NewHiveTile :=
  if DistanceTo pos kOriginPosition > b.Radius then kNoneTile
  else b.tile_grid.getD (b.AxialToIndex pos).toNat kNoneTile

/-- `HexBoard::GetPositionOf`. -/
def GetPositionOf (b : HexBoard) (t : NewHiveTile) : HivePosition :=
  if t.HasValue then b.tile_positions.getD t.val kNullPosition else kNullPosition

/-- `HexBoard::IsInPlay(NewHiveTile)`. -/
def IsInPlay (b : HexBoard) (t : NewHiveTile) : Bool :=
  t.HasValue && decide (b.tile_positions.getD t.val kNullPosition ≠ kNullPosition)

/-- `HexBoard::IsInPlay(Colour, BugType, ordinal)`. -/
def IsInPlayType (b : HexBoard) (c : Colour) (type : BugType) (ordinal : ℕ := 1) : Bool :=
  b.IsInPlay (GetTileFrom c type ordinal)

/-- `HexBoard::NeighboursOf`: the top tiles of the six cardinal
neighbour cells.  NOTE: the C++ function declares a `to_ignore`
parameter but its body never uses it; the parameter is kept here,
unused, to mirror the source. -/
def NeighboursOf (b : HexBoard) (pos : HivePosition)
    (_to_ignore : HivePosition := kNullPosition) : List NewHiveTile :=
  (Neighbours pos).filterMap (fun np =>
    let t := b.GetTopTileAt np
    if t.HasValue then some t else none)

/-- `HexBoard::IsConnected`: `NeighboursOf(pos, to_ignore).size() > 0`
(and `to_ignore` is in fact ignored by `NeighboursOf`). -/
def IsConnected (b : HexBoard) (pos to_ignore : HivePosition) : Bool :=
  decide ((b.NeighboursOf pos to_ignore).length > 0)

/-- `HexBoard::IsGated`. -/
def IsGated (b : HexBoard) (pos : HivePosition) (d : ℕ)
    (to_ignore : HivePosition := kNullPosition) : Bool :=
  let cw := pos + kNeighbourOffsets (ClockwiseDirection d)
  let ccw := pos + kNeighbourOffsets (CounterClockwiseDirection d)
  let cw_exists := decide (cw ≠ to_ignore) && decide ((b.GetPositionOf (b.GetTopTileAt cw)).h ≥ pos.h)
  let ccw_exists := decide (ccw ≠ to_ignore) && decide ((b.GetPositionOf (b.GetTopTileAt ccw)).h ≥ pos.h)
  if pos.h = 0 then cw_exists = ccw_exists else cw_exists && ccw_exists

/-- `HexBoard::IsCovered(NewHiveTile)`: the tile appears in
`covered_tiles_`. -/
def IsCovered (b : HexBoard) (t : NewHiveTile) : Bool :=
  t.HasValue && decide (t ∈ b.covered_tiles)

/-- `HexBoard::IsCovered(HivePosition)`.  The C++ body is
`return std::find_if(covered_tiles_.begin(), covered_tiles_.end(), pred);`
— it returns the *iterator* itself, not a comparison with `end()`.  For a
`std::array` the iterator is a plain pointer, and both `begin() + k` for
`k ≤ 7` and `end()` are non-null, so the implicit pointer-to-`bool`
conversion yields `true` on every input.  (`coveredFindIdx` records the
offset the discarded `find_if` computes.) -/
def coveredFindIdx (b : HexBoard) (pos : HivePosition) : ℕ :=
  match b.covered_tiles.findIdx? (fun t => b.GetPositionOf t = pos) with
  | some i => i
  | none => b.covered_tiles.length

def IsCoveredPos (b : HexBoard) (pos : HivePosition) : Bool :=
  let _iterator_offset := b.coveredFindIdx pos
  true

/-- `HexBoard::IsPinned(HivePosition)`. -/
def IsPinnedPos (b : HexBoard) (pos : HivePosition) : Bool :=
  decide (pos ∈ b.articulation_points)

/-- `HexBoard::IsPinned(NewHiveTile)`. -/
def IsPinned (b : HexBoard) (t : NewHiveTile) : Bool :=
  t.HasValue && b.IsPinnedPos (b.tile_positions.getD t.val kNullPosition)

/-- `HexBoard::IsPlaceable`. -/
def IsPlaceable (b : HexBoard) (c : Colour) (pos : HivePosition) : Bool :=
  decide (pos ∈ b.influence c) && !decide (pos ∈ b.influence (OtherColour c)) &&
    !(b.IsInPlay (b.GetTopTileAt pos))

/-- `HexBoard::IsQueenSurrounded`. -/
def IsQueenSurrounded (b : HexBoard) (c : Colour) : Bool :=
  let queen := match c with | kWhite => wQ | kBlack => bQ
  if !b.IsInPlay queen then false
  else (Neighbours (b.tile_positions.getD queen.val kNullPosition)).all
    (fun np => b.GetTopTileAt np ≠ kNoneTile)

/-- `HexBoard::GetTileBelow`. -/
def GetTileBelow (b : HexBoard) (pos : HivePosition) : NewHiveTile :=
  let below := pos - kNeighbourOffsets kAbove
  if b.GetPositionOf (b.GetTopTileAt below) = below then b.GetTopTileAt below
  else
    match b.covered_tiles.find? (fun t => t.HasValue && decide (b.tile_positions.getD t.val kNullPosition = below)) with
    | some t => t
    | none => kNoneTile

/-- `HexBoard::UpdateInfluence`: rebuild the colour's influence set from
the played, uncovered tiles of that colour (neighbour positions with the
height zeroed). -/
def UpdateInfluence (b : HexBoard) (c : Colour) : HexBoard :=
  let infl := b.played_tiles.foldl (fun (acc : List HivePosition) t =>
    if t.GetColour ≠ c then acc
    else if b.IsCovered t then acc
    else (Neighbours (b.tile_positions.getD t.val kNullPosition)).foldl
      (fun acc2 p => listInsert (Grounded p) acc2) acc) []
  b.setInfluence c infl

/-- `HexBoard::LastMovedTile()`. -/
def LastMovedTile (b : HexBoard) : NewHiveTile := b.last_moved

/-- `HexBoard::LastMovedFrom()`. -/
def LastMovedFrom (b : HexBoard) : HivePosition := b.last_moved_from

/-- `HexBoard::Pass()`. -/
def Pass (b : HexBoard) : HexBoard :=
  { b with last_moved := kNoneTile, last_moved_from := kNullPosition }

/-- The slide-validity test of `GenerateValidSlides` (line 329 of
`hive_hexboard.cc`): the target cell is empty, the edge is not gated
(ignoring the slider's start cell), and the target touches the hive. -/
def slideCond (b : HexBoard) (start_pos pos : HivePosition) (dir : ℕ) : Bool :=
  let to_test := pos + kNeighbourOffsets dir
  !(b.GetTopTileAt to_test).HasValue && !(b.IsGated pos dir start_pos) &&
    b.IsConnected to_test start_pos

/-- The first ("validate positions breadth-first") loop of the recursive
lambda `dfs` inside `HexBoard::GenerateValidSlides`: over the remaining
directions `ds`, insert the valid slide targets into `out` when the
emission condition (`depth == distance || unlimited_distance`) holds. -/
def slideEmit (b : HexBoard) (start_pos : HivePosition) (distance : ℤ)
    (unlimited : Bool) (pos : HivePosition) (fromDir : ℕ) (depth : ℤ)
    (visited : List HivePosition) :
    List ℕ → List HivePosition → List HivePosition
  | [], out => out
  | dir :: ds, out =>
    let to_test := pos + kNeighbourOffsets dir
    let out' :=
      if dir = fromDir then out
      else if to_test ∈ visited then out
      else if !(slideCond b start_pos pos dir) then out
      else if depth = distance ∨ unlimited = true then listInsert to_test out
      else out
    slideEmit b start_pos distance unlimited pos fromDir depth visited ds out'

/-- The second ("traverse depth-first") loop of the recursive lambda
`dfs` inside `HexBoard::GenerateValidSlides`, over the remaining
directions `ds`; the recursive `dfs` call is passed in as `step`. -/
def slideDfsLoop
    (step : HivePosition → ℕ → ℤ → List HivePosition × List HivePosition →
      List HivePosition × List HivePosition)
    (b : HexBoard) (start_pos : HivePosition) (distance : ℤ) (unlimited : Bool)
    (pos : HivePosition) (fromDir : ℕ) (depth : ℤ) :
    List ℕ → List HivePosition × List HivePosition →
    List HivePosition × List HivePosition
  | [], vo => vo
  | dir :: ds, (v, out) =>
    let to_test := pos + kNeighbourOffsets dir
    let vo' : List HivePosition × List HivePosition :=
      if dir = fromDir then (v, out)
      else if to_test ∈ v then (v, out)
      else if !(slideCond b start_pos pos dir) then (v, out)
      else
        let o1 := if depth = distance ∨ unlimited = true then listInsert to_test out else out
        let vo2 := step to_test (OppositeDirection dir) (depth + 1) (v, o1)
        (if !unlimited then listErase vo2.1 to_test else vo2.1, vo2.2)
    slideDfsLoop step b start_pos distance unlimited pos fromDir depth ds vo'

/-- The recursive lambda `dfs` inside `HexBoard::GenerateValidSlides`,
with the shared mutable `visited` and `out` sets threaded explicitly and
its second loop factored out as `slideDfsLoop`.  The C++ recursion
terminates because for a limited distance the depth is bounded by
`distance`, and for the unlimited (ant) case `visited` grows by one
position (drawn from the finite board neighbourhood) per frame; `fuel`
is chosen large enough in `GenerateValidSlides` to cover both. -/
def slideDfs (b : HexBoard) (start_pos : HivePosition) (distance : ℤ)
    (unlimited : Bool) :
    ℕ → HivePosition → ℕ → ℤ → List HivePosition × List HivePosition →
    List HivePosition × List HivePosition
  | 0, _, _, _, vo => vo
  | Nat.succ fuel, pos, fromDir, depth, (visited, out) =>
    if pos ∈ visited ∨ (!unlimited && decide (depth > distance)) then (visited, out)
    else
      -- "validate positions breadth-first"
      let out1 := slideEmit b start_pos distance unlimited pos fromDir depth visited
        (List.range 6) out
      if depth = distance then (visited, out1)
      else
        -- "traverse depth-first"
        slideDfsLoop (slideDfs b start_pos distance unlimited fuel) b start_pos
          distance unlimited pos fromDir depth (List.range 6)
          (listInsert pos visited, out1)

/-- `HexBoard::GenerateValidSlides`.  The fuel bound: a limited-distance
DFS nests at most `distance` frames; the unlimited DFS adds a fresh
position to `visited` per non-trivial frame, and every visited position
lies within `radius + 1` of the origin, so `(2R+3)²+2` frames suffice. -/
def GenerateValidSlides (b : HexBoard) (tile : NewHiveTile)
    (start_pos : HivePosition) (distance : ℤ) : List HivePosition :=
  if b.IsPinned tile || b.IsCovered tile then []
  else
    let unlimited := decide (distance < 0)
    let fuel : ℕ := if distance < 0
      then ((2 * b.hex_radius + 3) * (2 * b.hex_radius + 3)).toNat + 2
      else distance.toNat + 1
    (slideDfs b start_pos distance unlimited fuel start_pos kNumAllDirections 1 ([], [])).2

/-- `HexBoard::GenerateValidClimbs`. -/
def GenerateValidClimbs (b : HexBoard) (tile : NewHiveTile)
    (start_pos : HivePosition) : List HivePosition :=
  if b.IsPinned tile || b.IsCovered tile then []
  else
    let ground_pos := Grounded start_pos
    (List.range 6).foldl (fun (out : List HivePosition) d =>
      let neighbour := b.GetTopTileAt (ground_pos + kNeighbourOffsets d)
      if neighbour.HasValue then
        let to_pos := NeighbourAt (b.tile_positions.getD neighbour.val kNullPosition) kAbove
        -- climbing up: gate checked at the *target* height
        if to_pos.h > start_pos.h then
          if !(b.IsGated ⟨start_pos.q, start_pos.r, to_pos.h⟩ d) then listInsert to_pos out
          else out
        -- climbing down or across: gate checked at *this* tile's height
        else if !(b.IsGated start_pos d) then listInsert to_pos out
        else out
      else
        let to_pos := ground_pos + kNeighbourOffsets d
        -- climbing down to empty space: gate checked at *this* tile's height
        if to_pos.h < start_pos.h ∧ !(b.IsGated start_pos d) then listInsert to_pos out
        else out) []

/-- The inner `while` loop of `GenerateValidGrasshopperPositions`: hop
over consecutive occupied cells.  The fuel (29 in the caller) exceeds the
maximal possible run of 28 occupied cells, so it is never exhausted. -/
def grasshopperHop (b : HexBoard) (d : ℕ) : ℕ → HivePosition → Bool → HivePosition × Bool
  | 0, to_test, found => (to_test, found)
  | Nat.succ fuel, to_test, found =>
    if (b.GetTopTileAt to_test).HasValue then
      grasshopperHop b d fuel (to_test + kNeighbourOffsets d) true
    else (to_test, found)

/-- `HexBoard::GenerateValidGrasshopperPositions`. -/
def GenerateValidGrasshopperPositions (b : HexBoard) (tile : NewHiveTile)
    (start_pos : HivePosition) : List HivePosition :=
  if b.IsPinned tile || b.IsCovered tile then []
  else
    (List.range 6).foldl (fun (out : List HivePosition) d =>
      let res := grasshopperHop b d 29 (start_pos + kNeighbourOffsets d) false
      if res.2 then listInsert res.1 out else out) []

/-- `HexBoard::GenerateValidLadybugPositions`: exactly three climb steps
(up, across, down), the intermediate position strictly on the hive and
not above the start, the final position on the ground. -/
def GenerateValidLadybugPositions (b : HexBoard) (tile : NewHiveTile)
    (start_pos : HivePosition) : List HivePosition :=
  if b.IsPinned tile || b.IsCovered tile then []
  else
    let intermediates1 := b.GenerateValidClimbs tile start_pos
    let intermediates2 := intermediates1.foldl
      (fun acc pos => (b.GenerateValidClimbs tile pos).foldl (fun a p => listInsert p a) acc) []
    let intermediates3 := intermediates2.foldl (fun acc pos =>
      if pos.h = 0 ∨ pos = start_pos + kNeighbourOffsets kAbove then acc
      else (b.GenerateValidClimbs tile pos).foldl (fun a p => listInsert p a) acc) []
    intermediates3.foldl (fun out pos => if pos.h = 0 then listInsert pos out else out) []

/-- `HexBoard::GenerateValidPillbugSpecials`. -/
def GenerateValidPillbugSpecials (b : HexBoard) (tile : NewHiveTile)
    (start_pos : HivePosition) : List Move :=
  -- "Pillbug can still perform its special when Pinned"
  if b.IsCovered tile then []
  else
    let scan := (List.range 6).foldl
      (fun (acc : List NewHiveTile × List HivePosition) dir =>
        -- "ensure there is no gate blocking above for this direction"
        if b.IsGated (start_pos + kNeighbourOffsets kAbove) dir then acc
        else
          let test_pos := start_pos + kNeighbourOffsets dir
          let test_tile := b.GetTopTileAt (start_pos + kNeighbourOffsets dir)
          if test_tile.HasValue then
            if !(b.IsPinned test_tile) && !(b.IsCovered test_tile) &&
                decide (test_tile ≠ b.LastMovedTile) &&
                decide ((b.GetPositionOf test_tile).h = 0) then
              (acc.1 ++ [test_tile], acc.2)
            else acc
          else (acc.1, acc.2 ++ [test_pos])) ([], [])
    scan.1.flatMap (fun target_tile =>
      scan.2.flatMap (fun target_pos =>
        (List.range 6).flatMap (fun dir =>
          let ref_tile := b.GetTopTileAt (target_pos + kNeighbourOffsets dir)
          if ref_tile.HasValue ∧ ref_tile ≠ target_tile then
            [⟨target_tile, ref_tile, OppositeDirection dir⟩]
          else [])))

/-- `HexBoard::GenerateMovesFor` for every acting type except
`kMosquito` (the C++ function is one `switch`; the mosquito case is the
mutually-recursive `GenerateValidMosquitoPositions` and is split off as
`GenerateMovesFor` below, which dispatches to this function for all the
types a mosquito can copy). -/
def GenerateMovesForCore (b : HexBoard) (tile : NewHiveTile)
    (acting_type : BugType) : List Move :=
  let start_pos := b.tile_positions.getD tile.val kNullPosition
  let positions : List HivePosition :=
    match acting_type with
    | kQueen => b.GenerateValidSlides tile start_pos 1
    | kAnt => b.GenerateValidSlides tile start_pos (-1)
    | kGrasshopper => b.GenerateValidGrasshopperPositions tile start_pos
    | kSpider => b.GenerateValidSlides tile start_pos 3
    | kBeetle =>
        let climbs := b.GenerateValidClimbs tile start_pos
        if start_pos.h = 0 then
          (b.GenerateValidSlides tile start_pos 1).foldl (fun a p => listInsert p a) climbs
        else climbs
    | kLadybug => b.GenerateValidLadybugPositions tile start_pos
    | kPillbug => b.GenerateValidSlides tile start_pos 1
    | _ => []
  let specials : List Move :=
    match acting_type with
    | kPillbug => b.GenerateValidPillbugSpecials tile start_pos
    | _ => []
  specials ++ positions.flatMap (fun to_pos =>
    if to_pos.h > 0 then
      -- "only generate kAbove moves when on top of the hive"
      [⟨tile, b.GetTopTileAt to_pos, kAbove⟩]
    else
      (List.range 6).flatMap (fun dir =>
        let neighbour := b.GetTopTileAt (to_pos + kNeighbourOffsets dir)
        if neighbour.HasValue then
          if start_pos.h > 0 ∧ neighbour = tile then
            [⟨tile, b.GetTileBelow start_pos, OppositeDirection dir⟩]
          else if neighbour ≠ tile then
            [⟨tile, neighbour, OppositeDirection dir⟩]
          else []
        else []))

/-- `HexBoard::GenerateValidMosquitoPositions`: copy the movement of each
distinct neighbouring bug type (skipping mosquitoes; skipping Queen and
Spider when an Ant has already been seen); on top of the hive act as a
Beetle only. -/
def GenerateValidMosquitoPositions (b : HexBoard) (tile : NewHiveTile)
    (start_pos : HivePosition) : List Move :=
  -- "not checking IsPinned() as the Mosquito could use Pillbug special"
  if b.IsCovered tile then []
  else if start_pos.h > 0 then b.GenerateMovesForCore tile kBeetle
  else
    ((b.NeighboursOf start_pos).foldl
      (fun (acc : List BugType × List Move) neighbour =>
        let type := neighbour.GetBugType
        if type ∈ acc.1 then acc
        else
          let seen := type :: acc.1
          if type = kMosquito then (seen, acc.2)
          else if (type = kQueen ∨ type = kSpider) ∧ kAnt ∈ seen then (seen, acc.2)
          else (seen, acc.2 ++ b.GenerateMovesForCore tile type)) ([], [])).2

/-- `HexBoard::GenerateMovesFor` (the `to_move` parameter is forwarded by
the C++ code only into nested `GenerateMovesFor` calls and never read, so
it is dropped here). -/
def GenerateMovesFor (b : HexBoard) (tile : NewHiveTile)
    (acting_type : BugType) : List Move :=
  if acting_type = kMosquito then
    b.GenerateValidMosquitoPositions tile (b.tile_positions.getD tile.val kNullPosition)
  else b.GenerateMovesForCore tile acting_type

/-- `HexBoard::GeneratePlacementMoves`. -/
def GeneratePlacementMoves (b : HexBoard) (to_move : Colour)
    (move_number : ℕ) : List Move :=
  if move_number = 0 then
    -- white plays a non-queen tile "on top of nothing"
    (GetTilesForColour to_move).flatMap (fun tile =>
      if tile.GetBugType = kQueen then [] else [⟨tile, kNoneTile, kAbove⟩])
  else if move_number = 1 then
    -- black plays a non-queen tile next to white's first tile
    (GetTilesForColour to_move).flatMap (fun tile =>
      if tile.GetBugType = kQueen then []
      else (List.range 6).map (fun i => ⟨tile, b.played_tiles.headD kNoneTile, i⟩))
  else
    let queen_placed := decide (move_number ≥ 8) ||
      b.IsInPlay (match to_move with | kWhite => wQ | kBlack => bQ)
    (GetTilesForColour to_move).flatMap (fun tile =>
      if b.IsInPlay tile then []
      else if (move_number = 6 ∨ move_number = 7) ∧ queen_placed = false ∧
          tile.GetBugType ≠ kQueen then []
      else
        (b.influence to_move).flatMap (fun pos =>
          if (b.GetTopTileAt pos).HasValue then []
          else if pos ∈ b.influence (OtherColour to_move) then []
          else
            (List.range 6).flatMap (fun i =>
              let to_pos := pos + kNeighbourOffsets i
              let neighbour := b.GetTopTileAt to_pos
              if neighbour.HasValue then [⟨tile, neighbour, OppositeDirection i⟩]
              else [])))

/-- `HexBoard::GenerateAllMoves`: placements, then (when the player's
Queen is in play) movements for every friendly played tile other than
`last_moved_`. -/
def GenerateAllMoves (b : HexBoard) (to_move : Colour) (move_number : ℕ) : List Move :=
  b.GeneratePlacementMoves to_move move_number ++
    (if b.IsInPlayType to_move kQueen then
      b.played_tiles.flatMap (fun tile =>
        if tile.GetColour = to_move ∧ tile ≠ b.last_moved then
          b.GenerateMovesFor tile tile.GetBugType
        else [])
    else [])

/-- The mutable state of the Tarjan cut-vertex DFS in
`HexBoard::UpdateArticulationPoints` (`visit_order`, `visited`,
`entry_point`, `low_point`, and the accumulated articulation set). -/
structure TarjanState where
  visit_order : ℤ
  visited : List HivePosition
  entry_point : List (HivePosition × ℤ)
  low_point : List (HivePosition × ℤ)
  points : List HivePosition
deriving DecidableEq, Repr

/-- `flat_hash_map` lookup (first match; reads in the engine only occur
for keys that have been assigned, where the default `0` is unused). -/
def mapLookup (m : List (HivePosition × ℤ)) (k : HivePosition) : ℤ :=
  match m.find? (fun e => e.1 = k) with
  | some e => e.2
  | none => 0

/-- `flat_hash_map` assignment (prepend; lookups take the first match). -/
def mapAssign (m : List (HivePosition × ℤ)) (k : HivePosition) (v : ℤ) :
    List (HivePosition × ℤ) :=
  (k, v) :: m

/-- The recursive lambda `dfs` inside
`HexBoard::UpdateArticulationPoints`.  The C++ recursion terminates
because each frame marks an unvisited position visited and only occupied
(≤ 28) cells plus the root are ever visited; the caller passes fuel 40,
which is never exhausted. -/
def tarjanDfs (b : HexBoard) :
    ℕ → HivePosition → HivePosition → Bool → TarjanState → TarjanState
  | 0, _, _, _, st => st
  | Nat.succ fuel, vertex, parent, is_root, st =>
    let st1 : TarjanState :=
      { visit_order := st.visit_order + 1
        visited := listInsert vertex st.visited
        entry_point := mapAssign st.entry_point vertex st.visit_order
        low_point := mapAssign st.low_point vertex st.visit_order
        points := st.points }
    let res := (List.range 6).foldl
      (fun (acc : ℕ × TarjanState) dir =>
        let children := acc.1
        let s := acc.2
        let to_vertex := vertex + kNeighbourOffsets dir
        if !(b.GetTopTileAt to_vertex).HasValue then acc
        else if to_vertex = parent then acc
        else if to_vertex ∈ s.visited then
          let low' := min (mapLookup s.low_point vertex) (mapLookup s.entry_point to_vertex)
          (children, { s with low_point := mapAssign s.low_point vertex low' })
        else
          let s2 := tarjanDfs b fuel to_vertex vertex false s
          let low' := min (mapLookup s2.low_point vertex) (mapLookup s2.low_point to_vertex)
          let s3 := { s2 with low_point := mapAssign s2.low_point vertex low' }
          let s4 :=
            if mapLookup s3.low_point to_vertex ≥ mapLookup s3.entry_point vertex ∧
                is_root = false then
              { s3 with points := listInsert vertex s3.points }
            else s3
          (children + 1, s4)) (0, st1)
    if is_root = true ∧ res.1 > 1 then
      { res.2 with points := listInsert vertex res.2.points }
    else res.2

/-- `HexBoard::UpdateArticulationPoints`: clear the set and run the
cut-vertex DFS rooted at `tile_positions_[wQ]` — note that this is
`kNullPosition = (0, 0, -1)` whenever White's Queen is not yet in play. -/
def UpdateArticulationPoints (b : HexBoard) : HexBoard :=
  let st := tarjanDfs b 40 (b.tile_positions.getD NewHiveTile.wQ.val kNullPosition)
    kNullPosition true ⟨0, [], [], [], []⟩
  { b with articulation_points := st.points }

/-- The reverse scan over `covered_tiles_` in `HexBoard::MoveTile`
(reinstating the highest buried tile at the axial cell that was left):
returns the index of the first slot, scanning from index 6 down to 0,
holding a valid tile whose grounded position matches. -/
def coveredReinstateIdx (positions : List HivePosition)
    (covered : List NewHiveTile) (old_pos : HivePosition) : Option ℕ :=
  (List.range 7).reverse.find? (fun i =>
    let t := covered.getD i kNoneTile
    t ≠ kNoneTile ∧ Grounded old_pos = Grounded (if t.HasValue then positions.getD t.val kNullPosition else kNullPosition))

/-- The destination computation at the head of `HexBoard::MoveTile`:
reference tile position plus direction offset, with the height "falling
down" onto the actual pile top; a missing reference tile encodes the
opening move at the origin. -/
def moveDestination (b : HexBoard) (move : Move) : HivePosition :=
  if move.target.HasValue then
    let np := b.GetPositionOf move.target + kNeighbourOffsets move.direction
    if np.h > 0 then
      let top_tile := b.GetTopTileAt np
      if top_tile.HasValue then ⟨np.q, np.r, (b.tile_positions.getD top_tile.val kNullPosition).h + 1⟩
      else ⟨np.q, np.r, 0⟩
    else np
  else kOriginPosition

/-- `HexBoard::MoveTile`: returns `(success, updated board)`.  Mirrors
the C++ statement order: destination resolution (`moveDestination`), the
radius check (only `largest_radius` mutated on failure), the
played/covered/grid/position updates, covered-tile reinstatement with the
left-rotate compaction, the influence updates and the articulation-point
recomputation. -/
def MoveTile (b : HexBoard) (move : Move) : Bool × HexBoard :=
  let new_pos : HivePosition := b.moveDestination move
  let dist := DistanceTo new_pos kOriginPosition
  let b1 := { b with largest_radius := max b.largest_radius dist }
  if dist > b.hex_radius then (false, b1)
  else
    let old_pos := b.tile_positions.getD move.source.val kNullPosition
    let played' := if old_pos = kNullPosition then b.played_tiles ++ [move.source]
      else b.played_tiles
    let last_from' := if new_pos ≠ old_pos then old_pos else b.last_moved_from
    let old_idx := (b.AxialToIndex old_pos).toNat
    let new_idx := (b.AxialToIndex new_pos).toNat
    -- a tile already at the new position becomes covered (first free slot)
    let covered1 :=
      if (b.tile_grid.getD new_idx kNoneTile).HasValue then
        match b.covered_tiles.findIdx? (fun t => !t.HasValue) with
        | some i => b.covered_tiles.set i (b.tile_grid.getD new_idx kNoneTile)
        | none => b.covered_tiles
      else b.covered_tiles
    -- perform the move
    let grid1 := b.tile_grid.set new_idx move.source
    let positions1 := b.tile_positions.set move.source.val new_pos
    -- potentially reinstate a covered tile at the old position
    let reinstated :=
      if old_pos.h > 0 then
        match coveredReinstateIdx positions1 covered1 old_pos with
        | some i =>
          (grid1.set old_idx (covered1.getD i kNoneTile),
           -- left-rotate the freed slot to the end to keep height order
           (covered1.take i) ++ (covered1.drop (i + 1)) ++ [kNoneTile])
        | none => (grid1, covered1)
      else if old_pos ≠ kNullPosition then (grid1.set old_idx kNoneTile, covered1)
      else (grid1, covered1)
    let b2 : HexBoard :=
      { b1 with
        tile_grid := reinstated.1
        played_tiles := played'
        tile_positions := positions1
        covered_tiles := reinstated.2
        last_moved := move.source
        last_moved_from := last_from' }
    let b3 := b2.UpdateInfluence move.source.GetColour
    let b4 := if old_pos.h > 0 ∨ new_pos.h > 0 then
        b3.UpdateInfluence (OtherColour move.source.GetColour)
      else b3
    (true, b4.UpdateArticulationPoints)

end HexBoard

/-! ### The game state (`hive.h` / `hive.cc`) -/

/-- `HiveGame::NumDistinctActions() = 5488 + 1`; the pass action is the
highest id. -/
def kNumDistinctActions : ℕ := 5489
def kPassAction : ℕ := 5488
def kMaxGameLength : ℕ := 1000

/-- `HiveState::ActionToMove`.  For the pass action the C++ code leaves
`direction` uninitialised; it is never read (modelled as 0).  For
non-pass ids produced by `MoveToAction` the decoded components are below
28 and 7, where `Fin.ofNat` (mod 29) agrees with the C++ `uint8_t`
narrowing. -/
def ActionToMove (action : ℕ) : Move :=
  if action = kPassAction then ⟨NewHiveTile.kNoneTile, NewHiveTile.kNoneTile, 0⟩
  else
    let direction := action % 7
    let toVal := (action / 7) % 28
    let fromVal := action / (28 * 7)
    -- first-turn actions are encoded as playing a tile on top of itself
    if fromVal = toVal ∧ direction = kAbove then
      ⟨Fin.ofNat fromVal, NewHiveTile.kNoneTile, direction⟩
    else ⟨Fin.ofNat fromVal, Fin.ofNat toVal, direction⟩

/-- `HiveState::MoveToAction`: index into the `[from][to][direction]`
cube, with the first-turn special case `from = to`, `direction = kAbove`. -/
def MoveToAction (m : Move) : ℕ :=
  if m.IsPass then kPassAction
  else if !m.target.HasValue then
    m.source.val * (28 * 7) + m.source.val * 7 + kAbove
  else m.source.val * (28 * 7) + m.target.val * 7 + m.direction

/-- `open_spiel::hive::HiveState` together with the bookkeeping the
`open_spiel::State` base class maintains (`move_number_`, `history_`).
The expansion flags are stored (as in `expansions_`) but, as in the
sources, never influence move generation or serialization. -/
structure HiveState where
  current_player : ℕ
  board : HexBoard
  move_number : ℕ
  force_terminal : Bool
  history : List ℕ
  uses_mosquito : Bool
  uses_ladybug : Bool
  uses_pillbug : Bool
deriving DecidableEq, Repr

namespace HiveState

/-- `HiveState::WinConditionMet`. -/
def WinConditionMet (s : HiveState) (player : ℕ) : Bool :=
  s.board.IsQueenSurrounded (OtherColour (PlayerToColour player))

/-- `HiveState::IsTerminal`. -/
def IsTerminal (s : HiveState) : Bool :=
  s.WinConditionMet 0 || s.WinConditionMet 1 ||
    decide (s.move_number ≥ kMaxGameLength) || s.force_terminal

/-- `HiveState::Returns` (±1.0 / 0.0 doubles, modelled exactly as `ℤ`). -/
def Returns (s : HiveState) : List ℤ :=
  let white_winner := s.WinConditionMet 0
  let black_winner := s.WinConditionMet 1
  if xor white_winner black_winner then
    [if white_winner then 1 else -1, if black_winner then 1 else -1]
  else [0, 0]

/-- `HiveState::LegalActions`: the generated moves mapped to action ids
and deduplicated (the C++ `std::set` also sorts them ascending; the
order of the returned list is immaterial to every theorem below), with
the pass action when no move exists. -/
def LegalActions (s : HiveState) : List ℕ :=
  let moves := s.board.GenerateAllMoves (PlayerToColour s.current_player) s.move_number
  let actions := moves.foldl (fun acc m => listInsert (MoveToAction m) acc) []
  if actions = [] then [kPassAction] else actions

/-- `HiveState::DoApplyAction`. -/
def DoApplyAction (s : HiveState) (action : ℕ) : HiveState :=
  if action = kPassAction then
    { s with board := s.board.Pass,
             current_player := (s.current_player + 1) % 2 }
  else
    let res := s.board.MoveTile (ActionToMove action)
    { s with board := res.2,
             force_terminal := if res.1 then s.force_terminal else true,
             current_player := (s.current_player + 1) % 2 }

/-- `State::ApplyAction`: `DoApplyAction` plus the base-class bookkeeping
(append to `history_`, increment `move_number_`). -/
def applyAction (s : HiveState) (action : ℕ) : HiveState :=
  let s' := s.DoApplyAction action
  { s' with history := s.history ++ [action], move_number := s.move_number + 1 }

def applyActions (s : HiveState) (actions : List ℕ) : HiveState :=
  actions.foldl applyAction s

end HiveState

/-- `open_spiel::hive::HiveGame`.  NB: the constructor initialises
`board_radius_` to `kDefaultBoardRadius` unconditionally (the
`board_size` parameter is not read), so every initial state has radius 8. -/
structure HiveGame where
  uses_mosquito : Bool
  uses_ladybug : Bool
  uses_pillbug : Bool
deriving DecidableEq, Repr

/-- `HiveGame::NewInitialState`. -/
def HiveGame.NewInitialState (g : HiveGame) : HiveState :=
  { current_player := 0
    board := HexBoard.mkBoard kDefaultBoardRadius
    move_number := 0
    force_terminal := false
    history := []
    uses_mosquito := g.uses_mosquito
    uses_ladybug := g.uses_ladybug
    uses_pillbug := g.uses_pillbug }

/-- `HiveGame::DeserializeState`: returns `NewInitialState()`, ignoring
the string argument entirely. -/
def HiveGame.DeserializeState (g : HiveGame) (_str : List Char) : HiveState :=
  g.NewInitialState

/-! ### The UHP string surface (strings modelled as `List Char`) -/

/-- `NewHiveTile::ToUHP` (the `use_emojis = false` path): colour letter,
bug-type letter, and the ordinal digit for the multi-copy types
(Ant, Grasshopper, Spider, Beetle). -/
def tileToUHP (t : NewHiveTile) : List Char :=
  let colour : List Char := if t.GetColour = kWhite then ['w'] else ['b']
  let type := t.GetBugType
  let typeChars : List Char :=
    match type with
    | kQueen => ['Q']
    | kAnt => ['A']
    | kGrasshopper => ['G']
    | kSpider => ['S']
    | kBeetle => ['B']
    | kLadybug => ['L']
    | kMosquito => ['M']
    | kPillbug => ['P']
    | kNone => []
  let ordinal : List Char :=
    if type = kAnt ∨ type = kGrasshopper ∨ type = kSpider ∨ type = kBeetle then
      [Char.ofNat (48 + t.GetOrdinal)]
    else []
  colour ++ typeChars ++ ordinal

/-- The reference-tile formatting switch of `Move::ToUHP`: a `\`, `-`
or `/` prefix (NW, W, SW) or suffix (SE, E, NE) on the reference tile;
no mark for `kAbove`; a direction ≥ 7 is a fatal error in C++ and yields
the empty string here (never reached by the engine). -/
def fmtDir (d : ℕ) (ref : List Char) : List Char :=
  if d = kNE then ref ++ ['/']
  else if d = kE then ref ++ ['-']
  else if d = kSE then ref ++ ['\\']
  else if d = kSW then '/' :: ref
  else if d = kW then '-' :: ref
  else if d = kNW then '\\' :: ref
  else if d = kAbove then ref
  else []

/-- `Move::ToUHP`: `pass`, a bare tile for the opening move, or the
tile plus the formatted reference tile (`fmtDir`). -/
def moveToUHP (m : Move) : List Char :=
  if m.IsPass then "pass".toList
  else if !m.target.HasValue then tileToUHP m.source
  else tileToUHP m.source ++ ' ' :: fmtDir m.direction (tileToUHP m.target)

/-- `NewHiveTile::UHPToTile`'s string table (`kNoneTile` for unknown
strings; that case is a fatal `SPIEL_CHECK` in C++). -/
def uhpToTile (cs : List Char) : NewHiveTile :=
  match cs with
  | ['w', 'Q'] => NewHiveTile.wQ
  | ['w', 'A', '1'] => NewHiveTile.wA1
  | ['w', 'A', '2'] => NewHiveTile.wA2
  | ['w', 'A', '3'] => NewHiveTile.wA3
  | ['w', 'G', '1'] => NewHiveTile.wG1
  | ['w', 'G', '2'] => NewHiveTile.wG2
  | ['w', 'G', '3'] => NewHiveTile.wG3
  | ['w', 'S', '1'] => NewHiveTile.wS1
  | ['w', 'S', '2'] => NewHiveTile.wS2
  | ['w', 'B', '1'] => NewHiveTile.wB1
  | ['w', 'B', '2'] => NewHiveTile.wB2
  | ['w', 'M'] => NewHiveTile.wM
  | ['w', 'L'] => NewHiveTile.wL
  | ['w', 'P'] => NewHiveTile.wP
  | ['b', 'Q'] => NewHiveTile.bQ
  | ['b', 'A', '1'] => NewHiveTile.bA1
  | ['b', 'A', '2'] => NewHiveTile.bA2
  | ['b', 'A', '3'] => NewHiveTile.bA3
  | ['b', 'G', '1'] => NewHiveTile.bG1
  | ['b', 'G', '2'] => NewHiveTile.bG2
  | ['b', 'G', '3'] => NewHiveTile.bG3
  | ['b', 'S', '1'] => NewHiveTile.bS1
  | ['b', 'S', '2'] => NewHiveTile.bS2
  | ['b', 'B', '1'] => NewHiveTile.bB1
  | ['b', 'B', '2'] => NewHiveTile.bB2
  | ['b', 'M'] => NewHiveTile.bM
  | ['b', 'L'] => NewHiveTile.bL
  | ['b', 'P'] => NewHiveTile.bP
  | _ => NewHiveTile.kNoneTile

/-- Accumulator-based splitter modelling `absl::StrSplit(str, " ")`. -/
def splitAux (cur : List Char) : List Char → List (List Char)
  | [] => [cur.reverse]
  | c :: rest => if c = ' ' then cur.reverse :: splitAux [] rest
                 else splitAux (c :: cur) rest

def splitOnSpace (cs : List Char) : List (List Char) := splitAux [] cs

/-- The character class (backslash, dash, forward slash) used by the
`find_first_not_of` calls in `StringToAction`. -/
def isSlashChar (c : Char) : Bool := c = '\\' || c = '-' || c = '/'

/-- Index of the first character not in the slash class. -/
def findIdxNotSlash : List Char → Option ℕ
  | [] => none
  | c :: cs => if isSlashChar c then (findIdxNotSlash cs).map (· + 1) else some 0

/-- `std::string::find_first_not_of` over the slash class (`none`
models `npos`). -/
def findFirstNotOf (cs : List Char) : Option ℕ := findIdxNotSlash cs

/-- `std::string::find_last_not_of` over the slash class. -/
def findLastNotOf (cs : List Char) : Option ℕ :=
  match findIdxNotSlash cs.reverse with
  | some i => some (cs.length - 1 - i)
  | none => none

/-- The token dispatch of `HiveState::StringToAction` (after the
`absl::StrSplit`).  `none` models the C++ fatal-error paths (unparsable
bug name, more than two tokens, no non-slash character).  The prefix
slash gives NW/W/SW, the suffix slash SE/E/NE, otherwise the direction
is `kAbove`. -/
def stringToActionTokens : List (List Char) → Option ℕ
    | [b0] =>
      let source := uhpToTile b0
      if !source.HasValue then none
      else some (MoveToAction ⟨source, NewHiveTile.kNoneTile, kNumAllDirections⟩)
    | [b0, b1] =>
      let source := uhpToTile b0
      if !source.HasValue then none
      else
        let dirFront : ℕ :=
          match b1.head? with
          | some c => if c = '\\' then kNW else if c = '-' then kW
                      else if c = '/' then kSW else kNumAllDirections
          | none => kNumAllDirections
        let direction : ℕ :=
          if dirFront ≠ kNumAllDirections then dirFront
          else
            match b1.getLast? with
            | some c => if c = '\\' then kSE else if c = '-' then kE
                        else if c = '/' then kNE else kAbove
            | none => kAbove
        match findFirstNotOf b1, findLastNotOf b1 with
        | some start_index, some end_index =>
          let toTile := uhpToTile ((b1.drop start_index).take (end_index - start_index + 1))
          if !toTile.HasValue then none
          else some (MoveToAction ⟨source, toTile, direction⟩)
        | _, _ => none
    | _ => none

/-- `HiveState::StringToAction`: the `pass` check, then the token
dispatch on the split move string. -/
def stringToAction (cs : List Char) : Option ℕ :=
  if cs = "pass".toList then some kPassAction
  else stringToActionTokens (splitOnSpace cs)

/-- `absl::StrJoin` with a single-character separator. -/
def strJoin (sep : Char) : List (List Char) → List Char
  | [] => []
  | [x] => x
  | x :: xs => x ++ sep :: strJoin sep xs

/-- `kDefaultUHPGameType = "Base+PLM"` (a compile-time constant in
`hive.h`). -/
def kDefaultUHPGameType : List Char := "Base+PLM".toList

def digitChar (n : ℕ) : Char := Char.ofNat (48 + n)

def natToCharsAux : ℕ → ℕ → List Char
  | 0, _ => []
  | Nat.succ fuel, n =>
    if n < 10 then [digitChar n]
    else natToCharsAux fuel (n / 10) ++ [digitChar (n % 10)]

/-- Decimal rendering of a natural number (`absl::StrFormat("%d", ·)`). -/
def natToChars (n : ℕ) : List Char := natToCharsAux (n + 1) n

namespace HiveState

/-- `HiveState::ProgressString`. -/
def ProgressString (s : HiveState) : List Char :=
  if s.move_number = 0 then "NotStarted".toList
  else if s.move_number > kMaxGameLength then "Draw".toList
  else
    let white_winner := s.WinConditionMet 0
    let black_winner := s.WinConditionMet 1
    if xor white_winner black_winner then
      if white_winner then "WhiteWins".toList else "BlackWins".toList
    else if white_winner ∧ black_winner then "Draw".toList
    else "InProgress".toList

/-- `HiveState::TurnString`: `White[n]` / `Black[n]` with the 1-indexed
round `(move_number + 2) / 2`. -/
def TurnString (s : HiveState) : List Char :=
  (if s.current_player = 0 then "White".toList else "Black".toList) ++
    '[' :: natToChars ((s.move_number + 2) / 2) ++ [']']

/-- `HiveState::MovesString`: the history rendered through
`ActionToString` (= `ActionToMove(·).ToUHP()`) and joined with `;`. -/
def MovesString (s : HiveState) : List Char :=
  strJoin ';' (s.history.map (fun a => moveToUHP (ActionToMove a)))

/-- `HiveState::Serialize`: the four UHP session fields joined with `;`. -/
def Serialize (s : HiveState) : List Char :=
  strJoin ';' [kDefaultUHPGameType, s.ProgressString, s.TurnString, s.MovesString]

end HiveState

/-! ### Specification-side definitions

The following definitions are *not* translated from the C++ sources:
they formalise sentences of the specification document, for comparison
with the behaviour of the definitions above. -/

/-- Modelled from the spec: the grounded positions of all played,
uncovered tiles (the vertex set of the "one-hive" connectivity check of
invariant 1). -/
def hiveCells (b : HexBoard) : List HivePosition :=
  b.played_tiles.foldl (fun acc t =>
    if b.IsCovered t then acc
    else listInsert (Grounded (b.GetPositionOf t)) acc) []

/-- One saturation pass: add every cell of `cells` that is cardinally
adjacent to the accumulated component. -/
def oneHiveExpand (cells acc : List HivePosition) : List HivePosition :=
  cells.foldl (fun a c =>
    if c ∈ a then a
    else if (Neighbours c).any (fun n => n ∈ a) then c :: a
    else a) acc

def oneHiveSaturate (cells : List HivePosition) : ℕ → List HivePosition → List HivePosition
  | 0, acc => acc
  | Nat.succ n, acc => oneHiveSaturate cells n (oneHiveExpand cells acc)

/-- Modelled from the spec (invariant 1, *One-hive*): "the set of played,
uncovered tiles forms a single connected component under cardinal
adjacency".  Computed as: every hive cell is reached by saturating
cardinal adjacency from the first hive cell. -/
def oneHiveInvariant (b : HexBoard) : Bool :=
  match hiveCells b with
  | [] => true
  | c :: rest =>
    let component := oneHiveSaturate (c :: rest) (rest.length + 1) [c]
    (c :: rest).all (fun cell => cell ∈ component)

/-- Modelled from the spec (claim C2): `p` is reachable from `start` by
exactly 3 ground-slide steps in cardinal directions `d1, d2, d3`, each
step satisfying the slide predicate of the generator, with no cell
revisited within the path. -/
def SpiderPath (b : HexBoard) (start p : HivePosition) : Prop :=
  ∃ d1 d2 d3 : Fin 6,
    HexBoard.slideCond b start start d1.val = true ∧
    HexBoard.slideCond b start (start + kNeighbourOffsets d1.val) d2.val = true ∧
    HexBoard.slideCond b start (start + kNeighbourOffsets d1.val + kNeighbourOffsets d2.val) d3.val = true ∧
    (let p1 := start + kNeighbourOffsets d1.val
     let p2 := p1 + kNeighbourOffsets d2.val
     let p3 := p2 + kNeighbourOffsets d3.val
     p1 ≠ start ∧ p2 ≠ start ∧ p2 ≠ p1 ∧
       p3 ≠ start ∧ p3 ≠ p1 ∧ p3 ≠ p2 ∧ p = p3)

instance (b : HexBoard) (start p : HivePosition) : Decidable (SpiderPath b start p) := by
  unfold SpiderPath
  infer_instance

/-- Spec-side path predicate for the slide DFS, indexed by the number of
further recursion levels before the emission frame. -/
def SlidePathSpec (b : HexBoard) (start : HivePosition) :
    ℕ → HivePosition → ℕ → List HivePosition → HivePosition → Prop
  | 0, pos, fromDir, visited, p =>
      ∃ d : Fin 6, d.val ≠ fromDir ∧
        pos + kNeighbourOffsets d.val ∉ visited ∧
        HexBoard.slideCond b start pos d.val = true ∧
        p = pos + kNeighbourOffsets d.val
  | n + 1, pos, fromDir, visited, p =>
      ∃ d : Fin 6, d.val ≠ fromDir ∧
        pos + kNeighbourOffsets d.val ∉ pos :: visited ∧
        HexBoard.slideCond b start pos d.val = true ∧
        SlidePathSpec b start n (pos + kNeighbourOffsets d.val)
          (OppositeDirection d.val) (pos :: visited) p

/-- Modelled from the spec (claim C4): some played tile occupies the same
axial cell as `pos` at a strictly greater height. -/
def isCoveredPosSpec (b : HexBoard) (pos : HivePosition) : Bool :=
  b.played_tiles.any (fun t =>
    let p := b.GetPositionOf t
    decide (p.q = pos.q) && decide (p.r = pos.r) && decide (p.h > pos.h))

/-- Modelled from the spec (§6, game-type string): `Base` optionally
followed by `+` and exactly the subset of the letters `M`, `L`, `P` for
the enabled expansions, in that order. -/
def specGameTypeString (m l p : Bool) : List Char :=
  "Base".toList ++
    (if m || l || p then
      '+' :: ((if m then ['M'] else []) ++ (if l then ['L'] else []) ++
        (if p then ['P'] else []))
    else [])

/-! ### Concrete game scenarios (used by witnesses and counterexamples) -/

open NewHiveTile

/-- The default game: all three expansions enabled, board radius 8. -/
def gameAll : HiveGame := ⟨true, true, true⟩

def sInit : HiveState := gameAll.NewInitialState

/-- Moves of the reachable line `wG1; bG1 wG1-; wA1 -wG1; bQ bG1-;
wA2 -wA1`, after which White's Queen is still unplaced while Black's is
in play. -/
def mv0 : ℕ := MoveToAction ⟨wG1, kNoneTile, kAbove⟩
def mv1 : ℕ := MoveToAction ⟨bG1, wG1, kE⟩
def mv2 : ℕ := MoveToAction ⟨wA1, wG1, kW⟩
def mv3 : ℕ := MoveToAction ⟨bQ, bG1, kE⟩
def mv4 : ℕ := MoveToAction ⟨wA2, wA1, kW⟩

/-- The black Grasshopper jump `bG1 bQ-` (from `(1,0)` over `bQ` to
`(3,0)`), which detaches `{bQ, bG1}` from the three white tiles. -/
def mvBad : ℕ := MoveToAction ⟨bG1, bQ, kE⟩

def st1 : HiveState := sInit.applyAction mv0
def st2 : HiveState := st1.applyAction mv1
def st3 : HiveState := st2.applyAction mv2
def st4 : HiveState := st3.applyAction mv3
def st5 : HiveState := st4.applyAction mv4

/-- One further placement `bA1 bQ-` leading to `move_number = 6` with
White to move and White's Queen unplaced. -/
def st6 : HiveState := st5.applyAction (MoveToAction ⟨bA1, bQ, kE⟩)

/-- A radius-2 board holding `wQ` at the origin and `wS1` at `(0,-1)`
(the Spider witness board). -/
def spiderBoard : HexBoard :=
  (((HexBoard.mkBoard 2).MoveTile ⟨wQ, kNoneTile, kAbove⟩).2.MoveTile ⟨wS1, wQ, kNW⟩).2

/-- A radius-1 board holding `wQ` at the origin and `bQ` at `(1,0)`. -/
def tinyBoard : HexBoard :=
  (((HexBoard.mkBoard 1).MoveTile ⟨wQ, kNoneTile, kAbove⟩).2.MoveTile ⟨bQ, wQ, kE⟩).2

/-- A state on `tinyBoard`; the move `wA1 bQ-` resolves to `(2,0)`,
beyond the radius-1 board. -/
def tinyState : HiveState := ⟨0, tinyBoard, 2, false, [], true, true, true⟩

def overflowAction : ℕ := MoveToAction ⟨wA1, bQ, kE⟩

/-- The board an overflowing `MoveTile` leaves behind: everything
unchanged except `largest_radius`. -/
def HexBoard.overflowBoard (b : HexBoard) (m : Move) : HexBoard :=
  { b with largest_radius := max b.largest_radius (DistanceTo (b.moveDestination m) kOriginPosition) }

/-- A radius-2 board with `wQ` at the origin surrounded by six black
tiles. -/
def surroundedBoard : HexBoard :=
  ((((((((HexBoard.mkBoard 2).MoveTile ⟨wQ, kNoneTile, kAbove⟩).2.MoveTile
    ⟨bA1, wQ, kNE⟩).2.MoveTile ⟨bA2, wQ, kE⟩).2.MoveTile ⟨bA3, wQ, kSE⟩).2.MoveTile
    ⟨bG1, wQ, kSW⟩).2.MoveTile ⟨bG2, wQ, kW⟩).2.MoveTile ⟨bG3, wQ, kNW⟩).2

def surroundedState : HiveState := ⟨1, surroundedBoard, 7, false, [], true, true, true⟩

/-! ### General lemmas -/

theorem mem_listInsert {α : Type} [DecidableEq α] (a x : α) (l : List α) :
    x ∈ listInsert a l ↔ x = a ∨ x ∈ l := by
  unfold listInsert
  split_ifs with h
  · constructor
    · exact Or.inr
    · rintro (rfl | hx)
      · exact h
      · exact hx
  · simp [List.mem_cons]

theorem listInsert_of_not_mem {α : Type} [DecidableEq α] {a : α} {l : List α}
    (h : a ∉ l) : listInsert a l = a :: l := if_neg h

theorem listErase_of_not_mem {α : Type} [DecidableEq α] :
    ∀ {l : List α} {a : α}, a ∉ l → listErase l a = l := by
  intro l
  induction l with
  | nil => intro a _; rfl
  | cons b t ih =>
    intro a h
    rw [List.mem_cons, not_or] at h
    unfold listErase
    rw [if_neg (fun hb => h.1 hb.symm), ih h.2]

theorem listErase_cons_self {α : Type} [DecidableEq α] (a : α) (l : List α) :
    listErase (a :: l) a = l := by
  unfold listErase
  rw [if_pos rfl]

theorem hasValue_ne_none : ∀ t : NewHiveTile, t.HasValue = true → t ≠ kNoneTile := by
  decide

theorem queen_tile_unique :
    ∀ (c : Colour), ∀ t ∈ GetTilesForColour c, t.GetBugType = kQueen →
      t = GetTileFrom c kQueen := by
  intro c
  cases c <;> decide

/-- `List.takeWhile` of a prefix all of whose characters satisfy the
predicate, followed by a failing character. -/
theorem takeWhile_append_stop {α : Type} (p : α → Bool) :
    ∀ (l : List α) (c : α) (rest : List α), (∀ x ∈ l, p x = true) → p c = false →
      (l ++ c :: rest).takeWhile p = l := by
  intro l
  induction l with
  | nil => intro c rest _ hc; simp [List.takeWhile, hc]
  | cons a t ih =>
    intro c rest hall hc
    have ha : p a = true := hall a (by simp)
    simp [List.takeWhile, ha, ih c rest (fun x hx => hall x (by simp [hx])) hc]

-- ### Spider slide generation (C2) ###

theorem hivePos_add_def (a c : HivePosition) :
    a + c = ⟨a.q + c.q, a.r + c.r, a.h + c.h⟩ := rfl

theorem add_off_ne (x : HivePosition) (d : Fin 6) :
    x + kNeighbourOffsets d.val ≠ x := by
  intro h
  rw [hivePos_add_def] at h
  have hq := congrArg HivePosition.q h
  have hr := congrArg HivePosition.r h
  simp only at hq hr
  fin_cases d <;> simp [kNeighbourOffsets] at hq hr <;> omega

theorem add_off_off_eq_iff (x : HivePosition) (d e : Fin 6) :
    x + kNeighbourOffsets d.val + kNeighbourOffsets e.val = x ↔
      e.val = OppositeDirection d.val := by
  obtain ⟨xq, xr, xh⟩ := x
  fin_cases d <;> fin_cases e <;>
    simp [hivePos_add_def, kNeighbourOffsets, OppositeDirection,
      HivePosition.mk.injEq] <;>
    omega

theorem slideEmit_mem (b : HexBoard) (start_pos : HivePosition) (dist : ℤ)
    (unlim : Bool) (pos : HivePosition) (fromDir : ℕ) (depth : ℤ)
    (visited : List HivePosition) :
    ∀ (ds : List ℕ) (out : List HivePosition) (p : HivePosition),
      p ∈ HexBoard.slideEmit b start_pos dist unlim pos fromDir depth visited
        ds out ↔
      p ∈ out ∨ ∃ d ∈ ds, d ≠ fromDir ∧
        pos + kNeighbourOffsets d ∉ visited ∧
        HexBoard.slideCond b start_pos pos d = true ∧
        (depth = dist ∨ unlim = true) ∧ p = pos + kNeighbourOffsets d := by
  intro ds
  induction ds with
  | nil => intro out p; simp [HexBoard.slideEmit]
  | cons dir ds ih =>
    intro out p
    show p ∈ HexBoard.slideEmit b start_pos dist unlim pos fromDir depth visited
        ds (if dir = fromDir then out
          else if pos + kNeighbourOffsets dir ∈ visited then out
          else if !(HexBoard.slideCond b start_pos pos dir) then out
          else if depth = dist ∨ unlim = true then
            listInsert (pos + kNeighbourOffsets dir) out
          else out) ↔ _
    rw [ih]
    rw [List.exists_mem_cons_iff]
    split_ifs with h1 h2 h3 h4
    · constructor
      · rintro (h | h)
        · exact Or.inl h
        · exact Or.inr (Or.inr h)
      · rintro (h | ⟨hf, _⟩ | h)
        · exact Or.inl h
        · exact absurd h1 hf
        · exact Or.inr h
    · constructor
      · rintro (h | h)
        · exact Or.inl h
        · exact Or.inr (Or.inr h)
      · rintro (h | ⟨_, hm, _⟩ | h)
        · exact Or.inl h
        · exact absurd h2 hm
        · exact Or.inr h
    · have h3' : HexBoard.slideCond b start_pos pos dir = false := by
        revert h3; cases HexBoard.slideCond b start_pos pos dir <;> simp
      constructor
      · rintro (h | h)
        · exact Or.inl h
        · exact Or.inr (Or.inr h)
      · rintro (h | ⟨_, _, hsc, _⟩ | h)
        · exact Or.inl h
        · rw [h3'] at hsc; exact absurd hsc (by simp)
        · exact Or.inr h
    · have h3' : HexBoard.slideCond b start_pos pos dir = true := by
        revert h3; cases HexBoard.slideCond b start_pos pos dir <;> simp
      rw [mem_listInsert]
      constructor
      · rintro ((h | h) | h)
        · exact Or.inr (Or.inl ⟨h1, h2, h3', h4, h⟩)
        · exact Or.inl h
        · exact Or.inr (Or.inr h)
      · rintro (h | ⟨_, _, _, _, h⟩ | h)
        · exact Or.inl (Or.inr h)
        · exact Or.inl (Or.inl h)
        · exact Or.inr h
    · have h3' : HexBoard.slideCond b start_pos pos dir = true := by
        revert h3; cases HexBoard.slideCond b start_pos pos dir <;> simp
      constructor
      · rintro (h | h)
        · exact Or.inl h
        · exact Or.inr (Or.inr h)
      · rintro (h | ⟨_, _, _, hec, _⟩ | h)
        · exact Or.inl h
        · exact absurd hec h4
        · exact Or.inr h

theorem slideDfsLoop_visited
    (step : HivePosition → ℕ → ℤ → List HivePosition × List HivePosition →
      List HivePosition × List HivePosition)
    (b : HexBoard) (start : HivePosition) (dist : ℤ)
    (pos : HivePosition) (fromDir : ℕ) (depth : ℤ)
    (hstep : ∀ q f e v o, (step q f e (v, o)).1 = v ∨
      ((step q f e (v, o)).1 = listInsert q v ∧ q ∉ v)) :
    ∀ (ds : List ℕ) (v out : List HivePosition),
      (HexBoard.slideDfsLoop step b start dist false pos fromDir depth ds
        (v, out)).1 = v := by
  intro ds
  induction ds with
  | nil => intro v out; rfl
  | cons dir ds ih =>
    intro v out
    rw [show HexBoard.slideDfsLoop step b start dist false pos fromDir depth
        (dir :: ds) (v, out) =
      HexBoard.slideDfsLoop step b start dist false pos fromDir depth ds
        (if dir = fromDir then (v, out)
         else if pos + kNeighbourOffsets dir ∈ v then (v, out)
         else if !(HexBoard.slideCond b start pos dir) then (v, out)
         else
           (listErase
             (step (pos + kNeighbourOffsets dir) (OppositeDirection dir)
               (depth + 1) (v, if depth = dist ∨ false = true then
                 listInsert (pos + kNeighbourOffsets dir) out else out)).1
             (pos + kNeighbourOffsets dir),
            (step (pos + kNeighbourOffsets dir) (OppositeDirection dir)
               (depth + 1) (v, if depth = dist ∨ false = true then
                 listInsert (pos + kNeighbourOffsets dir) out else out)).2))
      from rfl]
    split_ifs with h1 h2 h3 h4
    · exact ih v out
    · exact ih v out
    · exact ih v out
    · rcases hstep (pos + kNeighbourOffsets dir) (OppositeDirection dir)
          (depth + 1) v (listInsert (pos + kNeighbourOffsets dir) out)
        with h | ⟨h, hnm⟩
      · rw [h, listErase_of_not_mem h2]
        exact ih v _
      · rw [h, listInsert_of_not_mem h2, listErase_cons_self]
        exact ih v _
    · rcases hstep (pos + kNeighbourOffsets dir) (OppositeDirection dir)
          (depth + 1) v out with h | ⟨h, hnm⟩
      · rw [h, listErase_of_not_mem h2]
        exact ih v _
      · rw [h, listInsert_of_not_mem h2, listErase_cons_self]
        exact ih v _

theorem slideDfs_visited (b : HexBoard) (start : HivePosition) (dist : ℤ) :
    ∀ (fuel : ℕ) (pos : HivePosition) (fromDir : ℕ) (depth : ℤ)
      (v out : List HivePosition),
      (HexBoard.slideDfs b start dist false fuel pos fromDir depth
        (v, out)).1 = v ∨
      ((HexBoard.slideDfs b start dist false fuel pos fromDir depth
        (v, out)).1 = listInsert pos v ∧ pos ∉ v) := by
  intro fuel
  induction fuel with
  | zero => intro pos fromDir depth v out; exact Or.inl rfl
  | succ fuel ih =>
    intro pos fromDir depth v out
    rw [show HexBoard.slideDfs b start dist false (fuel + 1) pos fromDir depth
        (v, out) =
      (if pos ∈ v ∨ ((!false && decide (depth > dist)) = true) then (v, out)
       else if depth = dist then
         (v, HexBoard.slideEmit b start dist false pos fromDir depth v
           (List.range 6) out)
       else HexBoard.slideDfsLoop
         (HexBoard.slideDfs b start dist false fuel) b start dist false pos
         fromDir depth (List.range 6)
         (listInsert pos v,
          HexBoard.slideEmit b start dist false pos fromDir depth v
            (List.range 6) out)) from rfl]
    split_ifs with hg hd
    · exact Or.inl rfl
    · exact Or.inl rfl
    · right
      have hnm : pos ∉ v := fun hm => hg (Or.inl hm)
      refine ⟨?_, hnm⟩
      exact slideDfsLoop_visited (HexBoard.slideDfs b start dist false fuel)
        b start dist pos fromDir depth
        (fun q f e v' o => ih q f e v' o) (List.range 6) (listInsert pos v) _

theorem slidePathSpec_zero_eq (b : HexBoard) (start pos : HivePosition)
    (fromDir : ℕ) (visited : List HivePosition) (p : HivePosition) :
    SlidePathSpec b start 0 pos fromDir visited p =
      (∃ d : Fin 6, d.val ≠ fromDir ∧
        pos + kNeighbourOffsets d.val ∉ visited ∧
        HexBoard.slideCond b start pos d.val = true ∧
        p = pos + kNeighbourOffsets d.val) := rfl

theorem slidePathSpec_succ_eq (b : HexBoard) (start : HivePosition) (n : ℕ)
    (pos : HivePosition) (fromDir : ℕ) (visited : List HivePosition)
    (p : HivePosition) :
    SlidePathSpec b start (n + 1) pos fromDir visited p =
      (∃ d : Fin 6, d.val ≠ fromDir ∧
        pos + kNeighbourOffsets d.val ∉ pos :: visited ∧
        HexBoard.slideCond b start pos d.val = true ∧
        SlidePathSpec b start n (pos + kNeighbourOffsets d.val)
          (OppositeDirection d.val) (pos :: visited) p) := rfl

theorem slideDfsLoop_mem
    (step : HivePosition → ℕ → ℤ → List HivePosition × List HivePosition →
      List HivePosition × List HivePosition)
    (b : HexBoard) (start : HivePosition) (dist : ℤ)
    (pos : HivePosition) (fromDir : ℕ) (depth : ℤ)
    (vb : List HivePosition) (n : ℕ)
    (hstepv : ∀ q f e v o, (step q f e (v, o)).1 = v ∨
      ((step q f e (v, o)).1 = listInsert q v ∧ q ∉ v))
    (hstepm : ∀ q f o p, q ∉ vb →
      (p ∈ (step q f (depth + 1) (vb, o)).2 ↔
        p ∈ o ∨ SlidePathSpec b start n q f vb p))
    (hdd : ¬ depth = dist) :
    ∀ (ds : List ℕ) (out : List HivePosition) (p : HivePosition),
      p ∈ (HexBoard.slideDfsLoop step b start dist false pos fromDir depth ds
        (vb, out)).2 ↔
      p ∈ out ∨ ∃ d ∈ ds, d ≠ fromDir ∧ pos + kNeighbourOffsets d ∉ vb ∧
        HexBoard.slideCond b start pos d = true ∧
        SlidePathSpec b start n (pos + kNeighbourOffsets d)
          (OppositeDirection d) vb p := by
  intro ds
  induction ds with
  | nil => intro out p; simp [HexBoard.slideDfsLoop]
  | cons dir ds ih =>
    intro out p
    rw [show HexBoard.slideDfsLoop step b start dist false pos fromDir depth
        (dir :: ds) (vb, out) =
      HexBoard.slideDfsLoop step b start dist false pos fromDir depth ds
        (if dir = fromDir then (vb, out)
         else if pos + kNeighbourOffsets dir ∈ vb then (vb, out)
         else if !(HexBoard.slideCond b start pos dir) then (vb, out)
         else
           (listErase
             (step (pos + kNeighbourOffsets dir) (OppositeDirection dir)
               (depth + 1) (vb, if depth = dist ∨ false = true then
                 listInsert (pos + kNeighbourOffsets dir) out else out)).1
             (pos + kNeighbourOffsets dir),
            (step (pos + kNeighbourOffsets dir) (OppositeDirection dir)
               (depth + 1) (vb, if depth = dist ∨ false = true then
                 listInsert (pos + kNeighbourOffsets dir) out else out)).2))
      from rfl, List.exists_mem_cons_iff]
    split_ifs with h1 h2 h3 h4
    · rw [ih]
      constructor
      · rintro (h | h)
        · exact Or.inl h
        · exact Or.inr (Or.inr h)
      · rintro (h | ⟨hf, _⟩ | h)
        · exact Or.inl h
        · exact absurd h1 hf
        · exact Or.inr h
    · rw [ih]
      constructor
      · rintro (h | h)
        · exact Or.inl h
        · exact Or.inr (Or.inr h)
      · rintro (h | ⟨_, hm, _⟩ | h)
        · exact Or.inl h
        · exact absurd h2 hm
        · exact Or.inr h
    · have h3' : HexBoard.slideCond b start pos dir = false := by
        revert h3; cases HexBoard.slideCond b start pos dir <;> simp
      rw [ih]
      constructor
      · rintro (h | h)
        · exact Or.inl h
        · exact Or.inr (Or.inr h)
      · rintro (h | ⟨_, _, hsc, _⟩ | h)
        · exact Or.inl h
        · rw [h3'] at hsc; exact absurd hsc (by simp)
        · exact Or.inr h
    · rcases h4 with h4 | h4
      · exact absurd h4 hdd
      · exact absurd h4 (by simp)
    · have h3' : HexBoard.slideCond b start pos dir = true := by
        revert h3; cases HexBoard.slideCond b start pos dir <;> simp
      have hv : listErase
          (step (pos + kNeighbourOffsets dir) (OppositeDirection dir)
            (depth + 1) (vb, out)).1 (pos + kNeighbourOffsets dir) = vb := by
        rcases hstepv (pos + kNeighbourOffsets dir) (OppositeDirection dir)
            (depth + 1) vb out with h | ⟨h, hnm⟩
        · rw [h, listErase_of_not_mem h2]
        · rw [h, listInsert_of_not_mem h2, listErase_cons_self]
      rw [hv, ih, hstepm (pos + kNeighbourOffsets dir) (OppositeDirection dir)
        out p h2]
      constructor
      · rintro ((h | h) | h)
        · exact Or.inl h
        · exact Or.inr (Or.inl ⟨h1, h2, h3', h⟩)
        · exact Or.inr (Or.inr h)
      · rintro (h | ⟨_, _, _, h⟩ | h)
        · exact Or.inl (Or.inl h)
        · exact Or.inl (Or.inr h)
        · exact Or.inr h

theorem slideDfs_mem (b : HexBoard) (start : HivePosition) (dist : ℤ) :
    ∀ (fuel : ℕ) (pos : HivePosition) (fromDir : ℕ) (depth : ℤ)
      (v out : List HivePosition) (p : HivePosition),
      depth ≤ dist → (dist - depth).toNat < fuel → pos ∉ v →
      (p ∈ (HexBoard.slideDfs b start dist false fuel pos fromDir depth
        (v, out)).2 ↔
        p ∈ out ∨ SlidePathSpec b start (dist - depth).toNat pos fromDir v p) := by
  intro fuel
  induction fuel with
  | zero =>
    intro pos fromDir depth v out p _ h2 _
    exact absurd h2 (Nat.not_lt_zero _)
  | succ fuel ih =>
    intro pos fromDir depth v out p hle hf hnm
    rw [show HexBoard.slideDfs b start dist false (fuel + 1) pos fromDir depth
        (v, out) =
      (if pos ∈ v ∨ ((!false && decide (depth > dist)) = true) then (v, out)
       else if depth = dist then
         (v, HexBoard.slideEmit b start dist false pos fromDir depth v
           (List.range 6) out)
       else HexBoard.slideDfsLoop
         (HexBoard.slideDfs b start dist false fuel) b start dist false pos
         fromDir depth (List.range 6)
         (listInsert pos v,
          HexBoard.slideEmit b start dist false pos fromDir depth v
            (List.range 6) out)) from rfl]
    split_ifs with hg hd
    · rcases hg with hg | hg
      · exact absurd hg hnm
      · simp only [Bool.not_false, Bool.true_and, decide_eq_true_eq] at hg
        omega
    · subst hd
      have h0 : (depth - depth).toNat = 0 := by omega
      rw [slideEmit_mem, h0]
      have hinner : (∃ d ∈ List.range 6, d ≠ fromDir ∧
          pos + kNeighbourOffsets d ∉ v ∧
          HexBoard.slideCond b start pos d = true ∧
          (depth = depth ∨ false = true) ∧ p = pos + kNeighbourOffsets d) ↔
          SlidePathSpec b start 0 pos fromDir v p := by
        rw [slidePathSpec_zero_eq]
        constructor
        · rintro ⟨d, hdm, ha, hb, hc, _, he⟩
          exact ⟨⟨d, List.mem_range.mp hdm⟩, ha, hb, hc, he⟩
        · rintro ⟨d, ha, hb, hc, he⟩
          exact ⟨d.val, List.mem_range.mpr d.isLt, ha, hb, hc, Or.inl rfl, he⟩
      exact or_congr_right hinner
    · have hlt : depth < dist := lt_of_le_of_ne hle hd
      rw [listInsert_of_not_mem hnm]
      have hidx : (dist - depth).toNat = (dist - (depth + 1)).toNat + 1 := by
        omega
      have hout1 : p ∈ HexBoard.slideEmit b start dist false pos fromDir depth
          v (List.range 6) out ↔ p ∈ out := by
        rw [slideEmit_mem]
        constructor
        · rintro (h | ⟨d, _, _, _, _, hec, _⟩)
          · exact h
          · rcases hec with hec | hec
            · exact absurd hec hd
            · exact absurd hec (by simp)
        · exact Or.inl
      rw [slideDfsLoop_mem (HexBoard.slideDfs b start dist false fuel) b start
        dist pos fromDir depth (pos :: v) ((dist - (depth + 1)).toNat)
        (fun q f e v' o => slideDfs_visited b start dist fuel q f e v' o)
        (fun q f o p' hq => ih q f (depth + 1) (pos :: v) o p' (by omega)
          (by omega) hq)
        hd (List.range 6) _ p, hout1, hidx, slidePathSpec_succ_eq]
      have hinner : (∃ d ∈ List.range 6, d ≠ fromDir ∧
          pos + kNeighbourOffsets d ∉ pos :: v ∧
          HexBoard.slideCond b start pos d = true ∧
          SlidePathSpec b start ((dist - (depth + 1)).toNat)
            (pos + kNeighbourOffsets d) (OppositeDirection d) (pos :: v) p) ↔
          (∃ d : Fin 6, d.val ≠ fromDir ∧
            pos + kNeighbourOffsets d.val ∉ pos :: v ∧
            HexBoard.slideCond b start pos d.val = true ∧
            SlidePathSpec b start ((dist - (depth + 1)).toNat)
              (pos + kNeighbourOffsets d.val) (OppositeDirection d.val)
              (pos :: v) p) := by
        constructor
        · rintro ⟨d, hdm, ha, hb, hc, he⟩
          exact ⟨⟨d, List.mem_range.mp hdm⟩, ha, hb, hc, he⟩
        · rintro ⟨d, ha, hb, hc, he⟩
          exact ⟨d.val, List.mem_range.mpr d.isLt, ha, hb, hc, he⟩
      exact or_congr_right hinner

theorem slidePathSpec_one_eq (b : HexBoard) (start pos : HivePosition)
    (fromDir : ℕ) (visited : List HivePosition) (p : HivePosition) :
    SlidePathSpec b start 1 pos fromDir visited p =
      (∃ d : Fin 6, d.val ≠ fromDir ∧
        pos + kNeighbourOffsets d.val ∉ pos :: visited ∧
        HexBoard.slideCond b start pos d.val = true ∧
        SlidePathSpec b start 0 (pos + kNeighbourOffsets d.val)
          (OppositeDirection d.val) (pos :: visited) p) := rfl

theorem slidePathSpec_two_eq (b : HexBoard) (start pos : HivePosition)
    (fromDir : ℕ) (visited : List HivePosition) (p : HivePosition) :
    SlidePathSpec b start 2 pos fromDir visited p =
      (∃ d : Fin 6, d.val ≠ fromDir ∧
        pos + kNeighbourOffsets d.val ∉ pos :: visited ∧
        HexBoard.slideCond b start pos d.val = true ∧
        SlidePathSpec b start 1 (pos + kNeighbourOffsets d.val)
          (OppositeDirection d.val) (pos :: visited) p) := rfl

theorem generateValidSlides_dist3_mem (b : HexBoard) (tile : NewHiveTile)
    (start p : HivePosition)
    (hpin : b.IsPinned tile = false) (hcov : b.IsCovered tile = false) :
    (p ∈ b.GenerateValidSlides tile start 3 ↔
      SlidePathSpec b start 2 start kNumAllDirections [] p) := by
  unfold HexBoard.GenerateValidSlides
  rw [hpin, hcov]
  simp only [Bool.or_self, Bool.false_eq_true, if_false]
  have hfuel : (if (3:ℤ) < 0 then
      ((2 * b.hex_radius + 3) * (2 * b.hex_radius + 3)).toNat + 2
      else (3:ℤ).toNat + 1) = 4 := by
    rw [if_neg (by omega)]
    decide
  rw [show decide ((3:ℤ) < 0) = false from rfl, hfuel,
    slideDfs_mem b start 3 4 start kNumAllDirections 1 [] [] p (by omega)
      (by decide) (List.not_mem_nil start),
    show ((3:ℤ) - 1).toNat = 2 from rfl]
  simp only [List.not_mem_nil, false_or]

theorem slidePathSpec_iff_spiderPath (b : HexBoard) (start p : HivePosition) :
    SlidePathSpec b start 2 start kNumAllDirections [] p ↔
      SpiderPath b start p := by
  rw [slidePathSpec_two_eq]
  unfold SpiderPath
  constructor
  · rintro ⟨d1, _, hm1, hc1, h1⟩
    rw [slidePathSpec_one_eq] at h1
    obtain ⟨d2, hf2, hm2, hc2, h2⟩ := h1
    rw [slidePathSpec_zero_eq] at h2
    obtain ⟨d3, hf3, hm3, hc3, rfl⟩ := h2
    simp only [List.mem_cons, List.not_mem_nil, or_false, not_or]
      at hm1 hm2 hm3
    exact ⟨d1, d2, d3, hc1, hc2, hc3, add_off_ne start d1, hm2.2,
      add_off_ne _ d2, hm3.2, hm3.1, add_off_ne _ d3, rfl⟩
  · rintro ⟨d1, d2, d3, hc1, hc2, hc3, hp1, hp2s, hp2p1, hp3s, hp3p1,
      hp3p2, rfl⟩
    have hd7 : (6:ℕ) ≤ kNumAllDirections := by
      rw [show kNumAllDirections = 7 from rfl]
      omega
    refine ⟨d1, Nat.ne_of_lt (lt_of_lt_of_le d1.isLt hd7), ?_, hc1, ?_⟩
    · simp only [List.mem_cons, List.not_mem_nil, or_false]
      exact hp1
    · rw [slidePathSpec_one_eq]
      refine ⟨d2, ?_, ?_, hc2, ?_⟩
      · intro h
        exact hp2s ((add_off_off_eq_iff start d1 d2).mpr h)
      · simp only [List.mem_cons, List.not_mem_nil, or_false, not_or]
        exact ⟨hp2p1, hp2s⟩
      · rw [slidePathSpec_zero_eq]
        refine ⟨d3, ?_, ?_, hc3, rfl⟩
        · intro h
          exact hp3p1
            ((add_off_off_eq_iff (start + kNeighbourOffsets d1.val) d2 d3).mpr h)
        · simp only [List.mem_cons, List.not_mem_nil, or_false, not_or]
          exact ⟨hp3p1, hp3s⟩

/-- C2: for an unpinned, uncovered tile, the distance-3 slide generator
(the `GenerateValidSlides` call `GenerateMovesFor` issues for a Spider)
emits exactly the cells reachable from the start by three ground-level
slide steps with all five path cells pairwise distinct; cells reachable
only by one or two steps are not emitted. -/
theorem c2_spider_slides_exact (b : HexBoard) (tile : NewHiveTile) (start p : HivePosition)
    (hpin : b.IsPinned tile = false) (hcov : b.IsCovered tile = false) :
    p ∈ b.GenerateValidSlides tile start 3 ↔ SpiderPath b start p := by
  rw [generateValidSlides_dist3_mem b tile start p hpin hcov,
    slidePathSpec_iff_spiderPath]

set_option maxRecDepth 40000 in
/-- Witness for C2 on the concrete two-tile board `spiderBoard`. -/
theorem c2_spider_slides_exact_witness :
    (spiderBoard.IsPinned NewHiveTile.wS1 = false) ∧
    (spiderBoard.IsCovered NewHiveTile.wS1 = false) ∧
    ((⟨0, 1, 0⟩ : HivePosition) ∈
        spiderBoard.GenerateValidSlides NewHiveTile.wS1 ⟨0, -1, 0⟩ 3 ↔
      SpiderPath spiderBoard ⟨0, -1, 0⟩ ⟨0, 1, 0⟩) ∧
    (⟨0, 1, 0⟩ : HivePosition) ∈
      spiderBoard.GenerateValidSlides NewHiveTile.wS1 ⟨0, -1, 0⟩ 3 :=
  ⟨by decide, by decide,
    c2_spider_slides_exact spiderBoard NewHiveTile.wS1 ⟨0, -1, 0⟩ ⟨0, 1, 0⟩
      (by decide) (by decide),
    by decide⟩

/-! ### Claim C1: the One-Hive invariant -/

-- ### UHP round trip (C7) ###

theorem splitAux_no_space :
    ∀ (l cur : List Char), (∀ c ∈ l, c ≠ ' ') → splitAux cur l = [cur.reverse ++ l] := by
  intro l
  induction l with
  | nil => intro cur _; simp [splitAux]
  | cons c cs ih =>
    intro cur h
    have hc : c ≠ ' ' := h c (by simp)
    simp only [splitAux, if_neg hc]
    rw [ih (c :: cur) (fun x hx => h x (by simp [hx]))]
    simp

theorem splitAux_append_space :
    ∀ (a cur b : List Char), (∀ c ∈ a, c ≠ ' ') →
      splitAux cur (a ++ ' ' :: b) = (cur.reverse ++ a) :: splitAux [] b := by
  intro a
  induction a with
  | nil => intro cur b _; simp [splitAux]
  | cons c cs ih =>
    intro cur b h
    have hc : c ≠ ' ' := h c (by simp)
    simp only [List.cons_append, splitAux, if_neg hc]
    show splitAux (c :: cur) (cs ++ ' ' :: b) = (cur.reverse ++ c :: cs) :: splitAux [] b
    rw [ih (c :: cur) b (fun x hx => h x (by simp [hx]))]
    simp

theorem findIdxNotSlash_cons_ok {x : Char} (l : List Char) (h : isSlashChar x = false) :
    findIdxNotSlash (x :: l) = some 0 := by
  simp [findIdxNotSlash, h]

theorem findIdxNotSlash_cons_slash {x : Char} (l : List Char) (h : isSlashChar x = true) :
    findIdxNotSlash (x :: l) = (findIdxNotSlash l).map (· + 1) := by
  simp [findIdxNotSlash, h]

theorem findIdxNotSlash_all_ok :
    ∀ {l : List Char}, (∀ c ∈ l, isSlashChar c = false) → l ≠ [] →
      findIdxNotSlash l = some 0 := by
  intro l h hne
  cases l with
  | nil => exact absurd rfl hne
  | cons x t => exact findIdxNotSlash_cons_ok t (h x (by simp))

theorem tileToUHP_good :
    ∀ t : NewHiveTile, t.val < 28 →
      tileToUHP t ≠ [] ∧ ∀ c ∈ tileToUHP t, isSlashChar c = false ∧ c ≠ ' ' := by
  decide

theorem tileToUHP_roundtrip :
    ∀ t : NewHiveTile, t.val < 28 → uhpToTile (tileToUHP t) = t := by
  decide

theorem tileToUHP_ne_pass :
    ∀ t : NewHiveTile, t.val < 28 → tileToUHP t ≠ "pass".toList := by
  decide

-- shape lemmas
theorem tokens_pair_suffix (S T : List Char) (sl : Char)
    (hTne : T ≠ []) (hTc : ∀ c ∈ T, isSlashChar c = false ∧ c ≠ ' ')
    (hsl : isSlashChar sl = true)
    (hsv : (uhpToTile S).HasValue = true)
    (htv : (uhpToTile T).HasValue = true) :
    stringToActionTokens [S, T ++ [sl]] =
      some (MoveToAction ⟨uhpToTile S, uhpToTile T,
        if sl = '\\' then kSE else if sl = '-' then kE
        else if sl = '/' then kNE else kAbove⟩) := by
  obtain ⟨y, T', rfl⟩ : ∃ y T', T = y :: T' := by
    cases T with
    | nil => exact absurd rfl hTne
    | cons y t => exact ⟨y, t, rfl⟩
  have hys : isSlashChar y = false := (hTc y (by simp)).1
  have hy : (¬(y = '\\') ∧ ¬(y = '-')) ∧ ¬(y = '/') := by
    simpa [isSlashChar] using hys
  have hfirst : findFirstNotOf (y :: (T' ++ [sl])) = some 0 :=
    findIdxNotSlash_cons_ok _ hys
  have hlast : findLastNotOf (y :: (T' ++ [sl])) = some T'.length := by
    unfold findLastNotOf
    have hrev : (y :: (T' ++ [sl])).reverse = sl :: ((y :: T').reverse) := by
      simp
    rw [hrev, findIdxNotSlash_cons_slash _ hsl,
      findIdxNotSlash_all_ok (fun c hc => (hTc c (List.mem_reverse.1 hc)).1) (by simp)]
    simp
  have hextract : List.take (T'.length + 1) (List.drop 0 (y :: (T' ++ [sl]))) =
      y :: T' := by
    have h1 := List.take_left T' [sl]
    simp [List.take_cons, h1]
  have hgl : (y :: (T' ++ [sl])).getLast? = some sl := by
    have := List.getLast?_concat (l := y :: T') (a := sl)
    simpa using this
  show stringToActionTokens [S, y :: (T' ++ [sl])] = _
  unfold stringToActionTokens
  simp only [hsv, Bool.not_true, Bool.false_eq_true, if_false, List.head?_cons]
  rw [hfirst, hlast]
  simp only [Nat.sub_zero] at hextract ⊢
  rw [hextract, htv]
  simp only [Bool.not_true, Bool.false_eq_true, if_false]
  rw [if_neg hy.1.1, if_neg hy.1.2, if_neg hy.2]
  simp only [ne_eq, not_true_eq_false, if_false, hgl]

theorem tokens_pair_prefix (S T : List Char) (sl : Char)
    (hTne : T ≠ []) (hTc : ∀ c ∈ T, isSlashChar c = false ∧ c ≠ ' ')
    (hsl : isSlashChar sl = true)
    (hsv : (uhpToTile S).HasValue = true)
    (htv : (uhpToTile T).HasValue = true) :
    stringToActionTokens [S, sl :: T] =
      some (MoveToAction ⟨uhpToTile S, uhpToTile T,
        if sl = '\\' then kNW else if sl = '-' then kW
        else if sl = '/' then kSW else kAbove⟩) := by
  obtain ⟨y, T', rfl⟩ : ∃ y T', T = y :: T' := by
    cases T with
    | nil => exact absurd rfl hTne
    | cons y t => exact ⟨y, t, rfl⟩
  have hys : isSlashChar y = false := (hTc y (by simp)).1
  have hfirst : findFirstNotOf (sl :: y :: T') = some 1 := by
    show findIdxNotSlash (sl :: y :: T') = some 1
    rw [findIdxNotSlash_cons_slash _ hsl, findIdxNotSlash_cons_ok _ hys]
    rfl
  have hlast : findLastNotOf (sl :: y :: T') = some (T'.length + 1) := by
    unfold findLastNotOf
    obtain ⟨z, R, hzR⟩ : ∃ z R, (y :: T').reverse = z :: R := by
      have hrne : (y :: T').reverse ≠ [] := by simp
      cases h : (y :: T').reverse with
      | nil => exact absurd h hrne
      | cons z R => exact ⟨z, R, rfl⟩
    have hz : z ∈ y :: T' := List.mem_reverse.1 (hzR ▸ (by simp : z ∈ z :: R))
    have hrev : (sl :: y :: T').reverse = z :: (R ++ [sl]) := by
      simp [hzR]
    rw [hrev, findIdxNotSlash_cons_ok _ ((hTc z hz).1)]
    simp
  have hextract : List.take (T'.length + 1 - 1 + 1) (List.drop 1 (sl :: y :: T')) =
      y :: T' := by
    simp [List.take_length]
  have hslOr : sl = '\\' ∨ sl = '-' ∨ sl = '/' := by
    have := hsl
    simp [isSlashChar] at this
    tauto
  unfold stringToActionTokens
  simp only [hsv, Bool.not_true, Bool.false_eq_true, if_false, List.head?_cons]
  rw [hfirst, hlast]
  simp only [Nat.add_sub_cancel] at hextract ⊢
  rw [hextract, htv]
  simp only [Bool.not_true, Bool.false_eq_true, if_false]
  rcases hslOr with rfl | rfl | rfl
  · have hdf : (if ('\\' : Char) = '\\' then kNW else if ('\\' : Char) = '-' then kW
        else if ('\\' : Char) = '/' then kSW else kNumAllDirections) = kNW := by decide
    have hdf2 : (if ('\\' : Char) = '\\' then kNW else if ('\\' : Char) = '-' then kW
        else if ('\\' : Char) = '/' then kSW else kAbove) = kNW := by decide
    rw [hdf, hdf2, if_pos (show kNW ≠ kNumAllDirections by decide)]
  · have hdf : (if ('-' : Char) = '\\' then kNW else if ('-' : Char) = '-' then kW
        else if ('-' : Char) = '/' then kSW else kNumAllDirections) = kW := by decide
    have hdf2 : (if ('-' : Char) = '\\' then kNW else if ('-' : Char) = '-' then kW
        else if ('-' : Char) = '/' then kSW else kAbove) = kW := by decide
    rw [hdf, hdf2, if_pos (show kW ≠ kNumAllDirections by decide)]
  · have hdf : (if ('/' : Char) = '\\' then kNW else if ('/' : Char) = '-' then kW
        else if ('/' : Char) = '/' then kSW else kNumAllDirections) = kSW := by decide
    have hdf2 : (if ('/' : Char) = '\\' then kNW else if ('/' : Char) = '-' then kW
        else if ('/' : Char) = '/' then kSW else kAbove) = kSW := by decide
    rw [hdf, hdf2, if_pos (show kSW ≠ kNumAllDirections by decide)]

theorem tokens_pair_bare (S T : List Char)
    (hTne : T ≠ []) (hTc : ∀ c ∈ T, isSlashChar c = false ∧ c ≠ ' ')
    (hsv : (uhpToTile S).HasValue = true)
    (htv : (uhpToTile T).HasValue = true) :
    stringToActionTokens [S, T] =
      some (MoveToAction ⟨uhpToTile S, uhpToTile T, kAbove⟩) := by
  obtain ⟨y, T', rfl⟩ : ∃ y T', T = y :: T' := by
    cases T with
    | nil => exact absurd rfl hTne
    | cons y t => exact ⟨y, t, rfl⟩
  have hys : isSlashChar y = false := (hTc y (by simp)).1
  have hy : (¬(y = '\\') ∧ ¬(y = '-')) ∧ ¬(y = '/') := by
    simpa [isSlashChar] using hys
  have hfirst : findFirstNotOf (y :: T') = some 0 :=
    findIdxNotSlash_cons_ok _ hys
  have hlast : findLastNotOf (y :: T') = some ((y :: T').length - 1) := by
    unfold findLastNotOf
    obtain ⟨z, R, hzR⟩ : ∃ z R, (y :: T').reverse = z :: R := by
      have hrne : (y :: T').reverse ≠ [] := by simp
      cases h : (y :: T').reverse with
      | nil => exact absurd h hrne
      | cons z R => exact ⟨z, R, rfl⟩
    have hz : z ∈ y :: T' := List.mem_reverse.1 (hzR ▸ (by simp : z ∈ z :: R))
    rw [hzR, findIdxNotSlash_cons_ok _ ((hTc z hz).1)]
    simp
  obtain ⟨gl, hgl⟩ : ∃ gl, (y :: T').getLast? = some gl :=
    ⟨(y :: T').getLast (by simp), List.getLast?_eq_getLast_of_ne_nil (by simp)⟩
  have hglmem : gl ∈ y :: T' := by
    obtain ⟨hne, heq⟩ := List.mem_getLast?_eq_getLast (l := y :: T') (x := gl)
      (by simp [Option.mem_def, hgl])
    rw [heq]
    exact List.getLast_mem hne
  have hgls : (¬(gl = '\\') ∧ ¬(gl = '-')) ∧ ¬(gl = '/') := by
    simpa [isSlashChar] using (hTc gl hglmem).1
  have hextract : List.take ((y :: T').length - 1 - 0 + 1) (List.drop 0 (y :: T')) =
      y :: T' := by
    have : (y :: T').length - 1 - 0 + 1 = (y :: T').length := by
      simp
    rw [this, List.drop_zero, List.take_length]
  unfold stringToActionTokens
  simp only [hsv, Bool.not_true, Bool.false_eq_true, if_false, List.head?_cons]
  rw [hfirst, hlast]
  simp only [Nat.sub_zero] at hextract ⊢
  rw [hextract, htv]
  simp only [Bool.not_true, Bool.false_eq_true, if_false]
  rw [if_neg hy.1.1, if_neg hy.1.2, if_neg hy.2]
  simp only [ne_eq, not_true_eq_false, if_false, hgl]
  rw [if_neg hgls.1.1, if_neg hgls.1.2, if_neg hgls.2]

theorem fmtDir_no_space (d : ℕ) (T : List Char)
    (hTc : ∀ c ∈ T, isSlashChar c = false ∧ c ≠ ' ') :
    ∀ c ∈ fmtDir d T, c ≠ ' ' := by
  intro c hc
  unfold fmtDir at hc
  split_ifs at hc <;>
    first
      | exact absurd hc (List.not_mem_nil c)
      | exact (hTc c hc).2
      | (simp only [List.mem_append, List.mem_cons, List.mem_singleton,
           List.not_mem_nil, or_false] at hc
         rcases hc with hc | hc <;>
           first
             | exact (hTc c hc).2
             | (subst hc; decide))

theorem stringToAction_pair (S T : List Char) (d : ℕ) (hd : d < 7)
    (hSne : S ≠ []) (hSc : ∀ c ∈ S, isSlashChar c = false ∧ c ≠ ' ')
    (hTne : T ≠ []) (hTc : ∀ c ∈ T, isSlashChar c = false ∧ c ≠ ' ')
    (hsv : (uhpToTile S).HasValue = true)
    (htv : (uhpToTile T).HasValue = true) :
    stringToAction (S ++ ' ' :: fmtDir d T) =
      some (MoveToAction ⟨uhpToTile S, uhpToTile T, d⟩) := by
  have hnotpass : S ++ ' ' :: fmtDir d T ≠ "pass".toList := by
    intro h
    have hsp : ' ' ∈ "pass".toList := by
      rw [← h]
      exact List.mem_append_right _ (List.mem_cons_self _ _)
    exact absurd hsp (by decide)
  have hsplit : splitOnSpace (S ++ ' ' :: fmtDir d T) = [S, fmtDir d T] := by
    unfold splitOnSpace
    rw [splitAux_append_space S [] _ (fun c hc => (hSc c hc).2),
      splitAux_no_space _ [] (fmtDir_no_space d T hTc)]
    simp
  unfold stringToAction
  rw [if_neg hnotpass, hsplit]
  interval_cases d
  · rw [show fmtDir 0 T = T ++ ['/'] by simp [fmtDir, kNE],
      tokens_pair_suffix S T '/' hTne hTc (by decide) hsv htv,
      show (if ('/' : Char) = '\\' then kSE else if ('/' : Char) = '-' then kE
        else if ('/' : Char) = '/' then kNE else kAbove) = 0 by decide]
  · rw [show fmtDir 1 T = T ++ ['-'] by simp [fmtDir, kNE, kE],
      tokens_pair_suffix S T '-' hTne hTc (by decide) hsv htv,
      show (if ('-' : Char) = '\\' then kSE else if ('-' : Char) = '-' then kE
        else if ('-' : Char) = '/' then kNE else kAbove) = 1 by decide]
  · rw [show fmtDir 2 T = T ++ ['\\'] by simp [fmtDir, kNE, kE, kSE],
      tokens_pair_suffix S T '\\' hTne hTc (by decide) hsv htv,
      show (if ('\\' : Char) = '\\' then kSE else if ('\\' : Char) = '-' then kE
        else if ('\\' : Char) = '/' then kNE else kAbove) = 2 by decide]
  · rw [show fmtDir 3 T = '/' :: T by simp [fmtDir, kNE, kE, kSE, kSW],
      tokens_pair_prefix S T '/' hTne hTc (by decide) hsv htv,
      show (if ('/' : Char) = '\\' then kNW else if ('/' : Char) = '-' then kW
        else if ('/' : Char) = '/' then kSW else kAbove) = 3 by decide]
  · rw [show fmtDir 4 T = '-' :: T by simp [fmtDir, kNE, kE, kSE, kSW, kW],
      tokens_pair_prefix S T '-' hTne hTc (by decide) hsv htv,
      show (if ('-' : Char) = '\\' then kNW else if ('-' : Char) = '-' then kW
        else if ('-' : Char) = '/' then kSW else kAbove) = 4 by decide]
  · rw [show fmtDir 5 T = '\\' :: T by simp [fmtDir, kNE, kE, kSE, kSW, kW, kNW],
      tokens_pair_prefix S T '\\' hTne hTc (by decide) hsv htv,
      show (if ('\\' : Char) = '\\' then kNW else if ('\\' : Char) = '-' then kW
        else if ('\\' : Char) = '/' then kSW else kAbove) = 5 by decide]
  · rw [show fmtDir 6 T = T by simp [fmtDir, kNE, kE, kSE, kSW, kW, kNW, kAbove],
      tokens_pair_bare S T hTne hTc hsv htv]
    rfl

theorem stringToAction_single (S : List Char)
    (hSc : ∀ c ∈ S, isSlashChar c = false ∧ c ≠ ' ')
    (hSnp : S ≠ "pass".toList)
    (hsv : (uhpToTile S).HasValue = true) :
    stringToAction S =
      some (MoveToAction ⟨uhpToTile S, NewHiveTile.kNoneTile, kNumAllDirections⟩) := by
  have hsplit : splitOnSpace S = [S] := by
    unfold splitOnSpace
    rw [splitAux_no_space S [] (fun c hc => (hSc c hc).2)]
    simp
  unfold stringToAction
  rw [if_neg hSnp, hsplit]
  unfold stringToActionTokens
  simp [hsv]

/-- C7: for every non-pass move with in-range components (as every move
emitted by the generator has), rendering the move with `Move::ToUHP` and
parsing the string back with `HiveState::StringToAction` recovers exactly
the action id `MoveToAction` assigns to the move. -/
theorem c7_uhp_round_trip (m : Move)
    (hps : m.IsPass = false)
    (hd : m.target.HasValue = true → m.direction < 7) :
    stringToAction (moveToUHP m) = some (MoveToAction m) := by
  have hsv : m.source.HasValue = true := by
    unfold Move.IsPass at hps
    simpa using hps
  have hsrc : m.source.val < 28 := of_decide_eq_true hsv
  obtain ⟨hSne, hSc⟩ := tileToUHP_good m.source hsrc
  have hsrt := tileToUHP_roundtrip m.source hsrc
  by_cases htv : m.target.HasValue = true
  · have htgt : m.target.val < 28 := of_decide_eq_true htv
    obtain ⟨hTne, hTc⟩ := tileToUHP_good m.target htgt
    have htrt := tileToUHP_roundtrip m.target htgt
    have hmu : moveToUHP m =
        tileToUHP m.source ++ ' ' :: fmtDir m.direction (tileToUHP m.target) := by
      unfold moveToUHP
      rw [hps, htv]
      simp
    rw [hmu, stringToAction_pair _ _ _ (hd htv) hSne hSc hTne hTc
      (by rw [hsrt]; exact hsv) (by rw [htrt]; exact htv), hsrt, htrt]
  · have htv' : m.target.HasValue = false := by
      revert htv; cases m.target.HasValue <;> simp
    have hmu : moveToUHP m = tileToUHP m.source := by
      unfold moveToUHP
      rw [hps, htv']
      simp
    rw [hmu, stringToAction_single _ hSc (tileToUHP_ne_pass m.source hsrc)
      (by rw [hsrt]; exact hsv), hsrt]
    have htgt28 : m.target = NewHiveTile.kNoneTile := by
      have hlt : ¬ m.target.val < 28 := of_decide_eq_false htv'
      have hub := m.target.isLt
      apply Fin.ext
      show m.target.val = 28
      omega
    congr 1
    unfold MoveToAction Move.IsPass
    simp only [hsv, Bool.not_true, Bool.false_eq_true, if_false]
    rw [htgt28]
    simp only [HasValue]
    rw [if_pos (show (!decide ((NewHiveTile.kNoneTile).val < 28)) = true by decide),
        if_pos (show (!decide ((NewHiveTile.kNoneTile).val < 28)) = true by decide)]

/-- Witness for C7: the move placing `wA2` to the east of `bQ`. -/
theorem c7_uhp_round_trip_witness :
    (Move.IsPass ⟨NewHiveTile.wA2, NewHiveTile.bQ, kE⟩ = false) ∧
    stringToAction (moveToUHP ⟨NewHiveTile.wA2, NewHiveTile.bQ, kE⟩) =
      some (MoveToAction ⟨NewHiveTile.wA2, NewHiveTile.bQ, kE⟩) :=
  ⟨by decide, c7_uhp_round_trip ⟨NewHiveTile.wA2, NewHiveTile.bQ, kE⟩
    (by decide) (fun _ => by decide)⟩


set_option maxRecDepth 1000000 in
set_option maxHeartbeats 4000000 in
/-- C1 (the code falsifies the claim): along the reachable line
`wG1; bG1 wG1-; wA1 -wG1; bQ bG1-; wA2 -wA1` every action is in the
enumerated legal-action list, the hive `wA2–wA1–wG1–bG1–bQ` is one
connected row, and the enumerated Grasshopper jump `bG1 bQ-` (Black may
move: Black's Queen is in play, White's is not) is legal — yet applying
it leaves the played, uncovered tiles split into `{wG1, wA1, wA2}` and
`{bQ, bG1}`, violating the One-Hive invariant.  (The articulation-point
DFS was rooted at `tile_positions_[wQ] = (0,0,-1)`, so every recorded
cut vertex has height `-1` and `IsPinned` matched none of them.) -/
theorem c1_one_hive_violated_by_enumerated_action :
    mv0 ∈ sInit.LegalActions ∧ mv1 ∈ st1.LegalActions ∧ mv2 ∈ st2.LegalActions ∧
    mv3 ∈ st3.LegalActions ∧ mv4 ∈ st4.LegalActions ∧
    mvBad ∈ st5.LegalActions ∧
    oneHiveInvariant st5.board = true ∧
    oneHiveInvariant ((st5.applyAction mvBad).board) = false := by
  decide

/-! ### Claim C3: out-of-board overflow -/

/-- C3: when the computed destination of a non-pass action lies farther
than the board radius from the origin, `MoveTile` fails and changes
nothing but `largest_radius`; the applying state latches
`force_terminal`, is terminal, and (with neither Queen surrounded, as in
any reachable non-terminal state) returns the draw `{0, 0}`. -/
theorem c3_overflow_latches_forced_draw (s : HiveState) (a : ℕ)
    (hpass : a ≠ kPassAction)
    (hdist : DistanceTo (s.board.moveDestination (ActionToMove a)) kOriginPosition >
      s.board.hex_radius)
    (hw : s.board.IsQueenSurrounded kWhite = false)
    (hb : s.board.IsQueenSurrounded kBlack = false) :
    s.board.MoveTile (ActionToMove a) =
      (false, s.board.overflowBoard (ActionToMove a)) ∧
    (s.applyAction a).board = s.board.overflowBoard (ActionToMove a) ∧
    (s.applyAction a).force_terminal = true ∧
    (s.applyAction a).IsTerminal = true ∧
    (s.applyAction a).Returns = [0, 0] := by
  have hmt : s.board.MoveTile (ActionToMove a) =
      (false, s.board.overflowBoard (ActionToMove a)) := by
    unfold HexBoard.MoveTile HexBoard.overflowBoard
    simp only []
    rw [if_pos hdist]
  have happ : s.applyAction a =
      { s with
          board := s.board.overflowBoard (ActionToMove a)
          force_terminal := true
          current_player := (s.current_player + 1) % 2
          history := s.history ++ [a]
          move_number := s.move_number + 1 } := by
    unfold HiveState.applyAction HiveState.DoApplyAction
    rw [if_neg hpass, hmt]
    simp
  refine ⟨hmt, ?_, ?_, ?_, ?_⟩
  · rw [happ]
  · rw [happ]
  · rw [happ]
    unfold HiveState.IsTerminal
    simp
  · rw [happ]
    unfold HiveState.Returns HiveState.WinConditionMet
    have hw' : (s.board.overflowBoard (ActionToMove a)).IsQueenSurrounded
        (OtherColour (PlayerToColour 0)) = false := hb
    have hb' : (s.board.overflowBoard (ActionToMove a)).IsQueenSurrounded
        (OtherColour (PlayerToColour 1)) = false := hw
    simp only [hw', hb']
    rfl

/-- Witness for C3, on the radius-1 two-tile board with the action
`wA1 bQ-` resolving to `(2, 0)`. -/
theorem c3_overflow_latches_forced_draw_witness :
    overflowAction ≠ kPassAction ∧
    DistanceTo (tinyState.board.moveDestination (ActionToMove overflowAction))
      kOriginPosition > tinyState.board.hex_radius ∧
    (tinyState.applyAction overflowAction).force_terminal = true ∧
    (tinyState.applyAction overflowAction).IsTerminal = true ∧
    (tinyState.applyAction overflowAction).Returns = [0, 0] := by
  have h := c3_overflow_latches_forced_draw tinyState overflowAction
    (by decide) (by decide) (by decide) (by decide)
  exact ⟨by decide, by decide, h.2.2.1, h.2.2.2.1, h.2.2.2.2⟩

/-! ### Claim C4: the position overload of `is_covered` -/

/-- C4 (the code, as written, falsifies the claim): the position overload
`IsCovered(HivePosition)` returns `true` for *every* input — the C++
body returns the `std::find_if` iterator itself, converted to `bool` —
in particular at the empty radius-8 board and the origin, where no tile
sits above (`isCoveredPosSpec` is `false`), yet the claim requires
`false` there. -/
theorem c4_is_covered_pos_always_true :
    (∀ (b : HexBoard) (pos : HivePosition), b.IsCoveredPos pos = true) ∧
    (HexBoard.mkBoard 8).IsCoveredPos kOriginPosition = true ∧
    isCoveredPosSpec (HexBoard.mkBoard 8) kOriginPosition = false :=
  ⟨fun _ _ => rfl, rfl, by decide⟩

/-! ### Claim C8: the serialized game-type field -/

/-- C8 counterexample: with all three expansions enabled (the claim's
`m = l = p = true`), the first field of the session string is the
constant `Base+PLM`, not `Base+MLP` (the subset of `M`, `L`, `P` in
that order) that the claim requires. -/
theorem c8_game_type_field_counterexample :
    (HiveState.Serialize sInit).takeWhile (fun ch => decide (ch ≠ ';')) =
      "Base+PLM".toList ∧
    specGameTypeString true true true = "Base+MLP".toList ∧
    ("Base+PLM".toList : List Char) ≠ "Base+MLP".toList := by
  refine ⟨?_, by decide, by decide⟩
  decide

/-- C8 amended: `Serialize` is the four fields joined by `;`, and its
first field is the *constant* `Base+PLM` for every state — regardless of
the expansion flags stored in the state, and with the expansion letters
in the order P, L, M. -/
theorem c8_serialize_four_fields_constant_game_type (s : HiveState) :
    s.Serialize = kDefaultUHPGameType ++
      ';' :: (s.ProgressString ++ ';' :: (s.TurnString ++ ';' :: s.MovesString)) ∧
    s.Serialize.takeWhile (fun ch => decide (ch ≠ ';')) = "Base+PLM".toList := by
  constructor
  · rfl
  · show (kDefaultUHPGameType ++
      ';' :: (s.ProgressString ++ ';' :: (s.TurnString ++ ';' :: s.MovesString))).takeWhile
        (fun ch => decide (ch ≠ ';')) = "Base+PLM".toList
    rw [takeWhile_append_stop _ _ _ _ (by decide) (by decide)]
    rfl

/-! ### Claim C9: totality of `GetTopTileAt` -/

/-- C9: for a well-formed board (grid of size `(2R+1)²`, `R ≥ 0`),
`GetTopTileAt` returns the none-tile for every position beyond the
radius without reading the grid, and for every position within the
radius the flat index is non-negative and within the grid bounds. -/
theorem c9_get_top_tile_at_total (b : HexBoard) (pos : HivePosition)
    (hlen : b.tile_grid.length = ((2 * b.hex_radius + 1) * (2 * b.hex_radius + 1)).toNat)
    (hrad : 0 ≤ b.hex_radius) :
    (DistanceTo pos kOriginPosition > b.hex_radius →
      b.GetTopTileAt pos = kNoneTile) ∧
    (DistanceTo pos kOriginPosition ≤ b.hex_radius →
      0 ≤ b.AxialToIndex pos ∧ (b.AxialToIndex pos).toNat < b.tile_grid.length) := by
  constructor
  · intro h
    unfold HexBoard.GetTopTileAt HexBoard.Radius
    rw [if_pos h]
  · intro h
    have hq0 : pos.q - kOriginPosition.q = pos.q := by
      show pos.q - 0 = pos.q
      ring
    have hr0 : pos.r - kOriginPosition.r = pos.r := by
      show pos.r - 0 = pos.r
      ring
    unfold DistanceTo at h
    rw [hq0, hr0] at h
    -- |q| ≤ R and |r| ≤ R
    have hbound : |pos.q| ≤ b.hex_radius ∧ |pos.r| ≤ b.hex_radius := by
      rcases abs_cases pos.q with ⟨e1, s1⟩ | ⟨e1, s1⟩ <;>
        rcases abs_cases pos.r with ⟨e2, s2⟩ | ⟨e2, s2⟩ <;>
        rcases abs_cases (pos.q + pos.r) with ⟨e3, s3⟩ | ⟨e3, s3⟩ <;>
        (rw [e1, e2, e3] at h; constructor <;> omega)
    unfold HexBoard.AxialToIndex HexBoard.Radius HexBoard.SquareDimensions
    rcases hbound with ⟨hq, hr⟩
    rw [abs_le] at hq hr
    have hp1 : 0 ≤ (pos.r + b.hex_radius) * (2 * b.hex_radius + 1) :=
      mul_nonneg (by omega) (by omega)
    have hp2 : (pos.r + b.hex_radius) * (2 * b.hex_radius + 1) ≤
        (2 * b.hex_radius) * (2 * b.hex_radius + 1) :=
      mul_le_mul_of_nonneg_right (by omega) (by omega)
    have hexp : (2 * b.hex_radius + 1) * (2 * b.hex_radius + 1) =
        (2 * b.hex_radius) * (2 * b.hex_radius + 1) + 2 * b.hex_radius + 1 := by
      ring
    rw [hlen]
    omega

/-- Witness for C9: the radius-2 board, at an out-of-range and an
in-range position. -/
theorem c9_get_top_tile_at_total_witness :
    ((HexBoard.mkBoard 2).tile_grid.length =
      ((2 * (HexBoard.mkBoard 2).hex_radius + 1) *
        (2 * (HexBoard.mkBoard 2).hex_radius + 1)).toNat) ∧
    (HexBoard.mkBoard 2).GetTopTileAt ⟨3, 0, 0⟩ = kNoneTile ∧
    (0 ≤ (HexBoard.mkBoard 2).AxialToIndex ⟨1, -1, 0⟩ ∧
      ((HexBoard.mkBoard 2).AxialToIndex ⟨1, -1, 0⟩).toNat <
        (HexBoard.mkBoard 2).tile_grid.length) := by
  have h := c9_get_top_tile_at_total (HexBoard.mkBoard 2) ⟨3, 0, 0⟩ (by decide) (by decide)
  have h2 := c9_get_top_tile_at_total (HexBoard.mkBoard 2) ⟨1, -1, 0⟩ (by decide) (by decide)
  exact ⟨by decide, h.1 (by decide), h2.2 (by decide)⟩

/-! ### Claim C5: the Queen placement rule -/

/-- C5: at `move_number` 6 or 7 with the mover's Queen not in play,
every enumerated move places the Queen (no movement moves are generated
because the Queen is not in play, and every non-Queen placement
candidate is suppressed). -/
theorem c5_fourth_placement_forces_queen (b : HexBoard) (c : Colour) (mn : ℕ)
    (hmn : mn = 6 ∨ mn = 7)
    (hq : b.IsInPlayType c kQueen = false) :
    ∀ m ∈ b.GenerateAllMoves c mn, m.source = GetTileFrom c kQueen := by
  intro m hm
  have hq2 : b.IsInPlay (GetTileFrom c kQueen) = false := hq
  unfold HexBoard.GenerateAllMoves at hm
  unfold HexBoard.IsInPlayType at hm
  rw [hq2] at hm
  simp only [Bool.false_eq_true, if_false, List.append_nil] at hm
  cases c with
  | kWhite =>
    have hq' : b.IsInPlay wQ = false := hq
    rcases hmn with rfl | rfl <;>
    · unfold HexBoard.GeneratePlacementMoves at hm
      simp only [hq'] at hm
      simp [List.mem_flatMap] at hm
      rcases hm with ⟨tile, htile, h1, htype, a, ha, h2, h3, i, hi, h4, hmeq⟩
      subst hmeq
      exact queen_tile_unique _ tile htile htype
  | kBlack =>
    have hq' : b.IsInPlay bQ = false := hq
    rcases hmn with rfl | rfl <;>
    · unfold HexBoard.GeneratePlacementMoves at hm
      simp only [hq'] at hm
      simp [List.mem_flatMap] at hm
      rcases hm with ⟨tile, htile, h1, htype, a, ha, h2, h3, i, hi, h4, hmeq⟩
      subst hmeq
      exact queen_tile_unique _ tile htile htype

set_option maxRecDepth 100000 in
/-- Witness for C5: the reachable state `st6` (White to move at
`move_number = 6`, White's Queen unplaced): every enumerated move places
`wQ`. -/
theorem c5_fourth_placement_forces_queen_witness :
    st6.move_number = 6 ∧
    st6.board.IsInPlayType kWhite kQueen = false ∧
    (∀ m ∈ st6.board.GenerateAllMoves kWhite 6, m.source = GetTileFrom kWhite kQueen) :=
  ⟨by decide, by decide,
    c5_fourth_placement_forces_queen st6.board kWhite 6 (Or.inl rfl) (by decide)⟩

/-! ### Claim C6: surrounded Queens end the game -/

/-- C6: whenever the Queen of colour `c` is in play with all six
cardinal neighbour cells occupied, the state is terminal; if the other
Queen is not surrounded the winner is the opponent of `c` (+1 for the
winner, -1 for the loser), and if both Queens are surrounded the returns
are `{0, 0}`. -/
theorem c6_surrounded_queen_is_terminal (s : HiveState) (c : Colour)
    (hplay : s.board.IsInPlay (GetTileFrom c kQueen) = true)
    (hsurr : ∀ np ∈ Neighbours (s.board.GetPositionOf (GetTileFrom c kQueen)),
      (s.board.GetTopTileAt np).HasValue = true) :
    s.IsTerminal = true ∧
    (s.board.IsQueenSurrounded (OtherColour c) = false →
      s.Returns = (match c with | kWhite => [-1, 1] | kBlack => [1, -1])) ∧
    (s.board.IsQueenSurrounded (OtherColour c) = true → s.Returns = [0, 0]) := by
  cases c with
  | kWhite =>
    have hplay' : s.board.IsInPlay NewHiveTile.wQ = true := hplay
    have hsurr' : ∀ np ∈ Neighbours
        (s.board.tile_positions.getD NewHiveTile.wQ.val kNullPosition),
        (s.board.GetTopTileAt np).HasValue = true := fun np hnp => hsurr np hnp
    have hq : s.board.IsQueenSurrounded kWhite = true := by
      unfold HexBoard.IsQueenSurrounded
      simp only [hplay', Bool.not_true, Bool.false_eq_true, if_false, List.all_eq_true]
      intro np hnp
      simpa using hasValue_ne_none _ (hsurr' np hnp)
    refine ⟨?_, ?_, ?_⟩
    · unfold HiveState.IsTerminal HiveState.WinConditionMet
      have e1 : OtherColour (PlayerToColour 1) = kWhite := rfl
      rw [e1, hq]
      simp
    · intro hother
      have hotherB : s.board.IsQueenSurrounded kBlack = false := hother
      unfold HiveState.Returns HiveState.WinConditionMet
      have e0 : OtherColour (PlayerToColour 0) = kBlack := rfl
      have e1 : OtherColour (PlayerToColour 1) = kWhite := rfl
      rw [e0, e1, hq, hotherB]
      rfl
    · intro hother
      have hotherB : s.board.IsQueenSurrounded kBlack = true := hother
      unfold HiveState.Returns HiveState.WinConditionMet
      have e0 : OtherColour (PlayerToColour 0) = kBlack := rfl
      have e1 : OtherColour (PlayerToColour 1) = kWhite := rfl
      rw [e0, e1, hq, hotherB]
      rfl
  | kBlack =>
    have hplay' : s.board.IsInPlay NewHiveTile.bQ = true := hplay
    have hsurr' : ∀ np ∈ Neighbours
        (s.board.tile_positions.getD NewHiveTile.bQ.val kNullPosition),
        (s.board.GetTopTileAt np).HasValue = true := fun np hnp => hsurr np hnp
    have hq : s.board.IsQueenSurrounded kBlack = true := by
      unfold HexBoard.IsQueenSurrounded
      simp only [hplay', Bool.not_true, Bool.false_eq_true, if_false, List.all_eq_true]
      intro np hnp
      simpa using hasValue_ne_none _ (hsurr' np hnp)
    refine ⟨?_, ?_, ?_⟩
    · unfold HiveState.IsTerminal HiveState.WinConditionMet
      have e0 : OtherColour (PlayerToColour 0) = kBlack := rfl
      rw [e0, hq]
      simp
    · intro hother
      have hotherW : s.board.IsQueenSurrounded kWhite = false := hother
      unfold HiveState.Returns HiveState.WinConditionMet
      have e0 : OtherColour (PlayerToColour 0) = kBlack := rfl
      have e1 : OtherColour (PlayerToColour 1) = kWhite := rfl
      rw [e0, e1, hq, hotherW]
      rfl
    · intro hother
      have hotherW : s.board.IsQueenSurrounded kWhite = true := hother
      unfold HiveState.Returns HiveState.WinConditionMet
      have e0 : OtherColour (PlayerToColour 0) = kBlack := rfl
      have e1 : OtherColour (PlayerToColour 1) = kWhite := rfl
      rw [e0, e1, hq, hotherW]
      rfl

set_option maxRecDepth 40000 in
/-- Witness for C6: `surroundedState` (White's Queen enclosed by six
black tiles, Black's Queen not in play): terminal, Black wins. -/
theorem c6_surrounded_queen_is_terminal_witness :
    surroundedState.board.IsInPlay (GetTileFrom kWhite kQueen) = true ∧
    surroundedState.IsTerminal = true ∧
    surroundedState.Returns = [-1, 1] := by
  have h := c6_surrounded_queen_is_terminal surroundedState kWhite
    (by decide) (by decide)
  exact ⟨by decide, h.1, h.2.1 (by decide)⟩

/-! ### Claim C10: `DeserializeState` ignores its input -/

/-- C10: `DeserializeState` returns a fresh initial state for every
input string; in particular, deserializing the session string of the
mid-game state `st1` (after `wG1`) does not reconstruct `st1`. -/
theorem c10_deserialize_state_returns_initial :
    (∀ (g : HiveGame) (str : List Char), g.DeserializeState str = g.NewInitialState) ∧
    gameAll.DeserializeState (HiveState.Serialize st1) ≠ st1 :=
  ⟨fun _ _ => rfl, by decide⟩

end HiveSpec
